import Mathlib

/-!
Verification of the quorum / quorum-device configuration facade of the pcs
corosync library (`pcs/lib/corosync/config_facade.py`).

The `ConfigFacade` class is translated here as pure functions over an
explicit `Section` tree.  The `Section` tree itself, the report
constructors and the report processor live in modules that are not part of
the sources (`pcs.lib.corosync.config_parser`, `pcs.lib.reports`,
`pcs.lib.errors`); those are modelled from the specification (spec.md
sections 3, 4.1 and 7) and are marked as such in their doc comments.

Python `dict` arguments are modelled as association lists with distinct
keys; `sorted(options.items())` is modelled by an insertion sort on the
keys (keys are distinct in every call site, so comparing keys only is
faithful to Python's tuple ordering).
-/

namespace Corosync

/-- Helper: code-point comparison of two character lists, mirroring Python's
lexicographic string ordering. -/
def strLeAux : List Char → List Char → Bool
  | [], _ => true
  | _ :: _, [] => false
  | a :: as, b :: bs =>
    if a.toNat < b.toNat then true
    else if b.toNat < a.toNat then false
    else strLeAux as bs

/-- Helper: Python-style `<=` on strings (lexicographic by code point). -/
def strLe (a b : String) : Bool := strLeAux a.toList b.toList

/-- An attribute of a section: a (key, value) pair of strings. -/
abbrev Attr := String × String

/-- Helper: insert a pair into a key-sorted list of pairs (stable). -/
def insertPair (p : Attr) : List Attr → List Attr
  | [] => [p]
  | q :: qs => if strLe p.1 q.1 then p :: q :: qs else q :: insertPair p qs

/-- Helper: sort a list of (key, value) pairs by key, mirroring Python's
`sorted(options.items())` for dicts (keys are distinct in a dict). -/
def sortPairs (l : List Attr) : List Attr := l.foldr insertPair []

/-- Helper: Python `str.isdigit` restricted to ASCII digits: nonempty and
every character a decimal digit. -/
def pyIsDigit (s : String) : Bool :=
  !s.toList.isEmpty && s.toList.all (fun c => 48 ≤ c.toNat && c.toNat ≤ 57)

/-- Helper: numeric value of a digit string, mirroring Python `int(value)`
on strings that satisfy `isdigit`. -/
def toNatPy (s : String) : Nat :=
  s.toList.foldl (fun n c => n * 10 + (c.toNat - 48)) 0

/-- Modelled from the spec (section 3 and 4.1): the Section tree data model
of the missing `pcs.lib.corosync` parser module.  A named node holding an
ordered list of (key, value) attributes and an ordered list of child
sections. -/
inductive Section where
  | mk (name : String) (attributes : List Attr) (children : List Section)

/-- Name of a section. -/
def Section.name : Section → String
  | .mk n _ _ => n

/-- Attribute list of a section. -/
def Section.attributes : Section → List Attr
  | .mk _ a _ => a

/-- Child list of a section. -/
def Section.children : Section → List Section
  | .mk _ _ c => c

/-- Modelled from the spec (section 4.1): `get_sections(name)` returns the
child sections carrying the given name, in order. -/
def Section.get_sections (s : Section) (name : String) : List Section :=
  s.children.filter (fun c => c.name == name)

/-- Modelled from the spec (section 4.1): `get_attributes(key)` returns the
(key, value) pairs of the section whose key equals `key`, in order. -/
def Section.get_attributes (s : Section) (key : String) : List Attr :=
  s.attributes.filter (fun a => a.1 == key)

/-- Helper for `Section.set_attribute` at the attribute-list level: replace
the first occurrence of the key (dropping later duplicates), or append the
pair if the key is absent. -/
def setAttrList (key value : String) : List Attr → List Attr
  | [] => [(key, value)]
  | a :: rest =>
    if a.1 == key then (key, value) :: rest.filter (fun b => b.1 != key)
    else a :: setAttrList key value rest

/-- Modelled from the spec (section 4.1): `set_attribute(key, value)`
appends the pair when the key is absent and replaces the single occurrence
when exactly one exists; on duplicate keys we fix the deterministic
behaviour of replacing the first occurrence and dropping the rest. -/
def Section.set_attribute (s : Section) (key value : String) : Section :=
  .mk s.name (setAttrList key value s.attributes) s.children

/-- Modelled from the spec (section 4.1): `del_attributes_by_name(key)`
removes every attribute with the given key. -/
def Section.del_attributes_by_name (s : Section) (key : String) : Section :=
  .mk s.name (s.attributes.filter (fun a => a.1 != key)) s.children

/-- Modelled from the spec (section 4.1): `add_section` appends a child. -/
def Section.add_section (s : Section) (child : Section) : Section :=
  .mk s.name s.attributes (s.children ++ [child])

/-- Modelled from the spec (section 4.1): a section is empty iff it has no
attributes and no children. -/
def Section.empty (s : Section) : Bool :=
  s.attributes.isEmpty && s.children.isEmpty

mutual

/-- Translated from `ConfigFacade.__remove_empty_sections`: recurse into
every child first, then drop the children that ended up empty. -/
def removeEmptySections : Section → Section
  | .mk n a cs => .mk n a (pruneChildren cs)

/-- Helper for `removeEmptySections`: prune a list of children. -/
def pruneChildren : List Section → List Section
  | [] => []
  | c :: cs =>
    let c' := removeEmptySections c
    if c'.empty then pruneChildren cs else c' :: pruneChildren cs

end

/-! ## Reports and the report processor

The report constructors (`pcs.lib.reports`) and the severity model
(`pcs.lib.errors.ReportItemSeverity`) are not part of the sources; they are
modelled from the spec (sections 3 and 7). -/

/-- Modelled from the spec (section 3): the severity of a diagnostic
finding. -/
inductive Severity where
  | error
  | warning
deriving DecidableEq, Repr

/-- Modelled from the spec (section 3): the category and context of a
diagnostic finding produced by the validation layer. -/
inductive ReportKind where
  | invalidOption (optionName : String) (optionType : String)
  | invalidOptionValue (optionName : String) (optionValue : String)
  | requiredOptionIsMissing (optionName : String)
  | qdeviceAlreadyDefined
  | qdeviceNotDefined
deriving DecidableEq, Repr

/-- Modelled from the spec (sections 3 and 7): one diagnostic finding, with
its severity and whether it carries a force code (is forceable). -/
structure Report where
  kind : ReportKind
  severity : Severity
  forceable : Bool
deriving DecidableEq, Repr

/-- Modelled from the spec: `reports.invalid_option` with the default
severity (error) and no force code. -/
def invalidOptionRpt (optionName optionType : String) : Report :=
  ⟨.invalidOption optionName optionType, .error, false⟩

/-- Modelled from the spec: `reports.invalid_option` with an explicit
severity and force code. -/
def invalidOptionRptSev (optionName optionType : String)
    (severity : Severity) (forceable : Bool) : Report :=
  ⟨.invalidOption optionName optionType, severity, forceable⟩

/-- Modelled from the spec: `reports.invalid_option_value` with the default
severity (error) and no force code. -/
def invalidOptionValueRpt (optionName optionValue : String) : Report :=
  ⟨.invalidOptionValue optionName optionValue, .error, false⟩

/-- Modelled from the spec: `reports.invalid_option_value` with an explicit
severity and force code. -/
def invalidOptionValueRptSev (optionName optionValue : String)
    (severity : Severity) (forceable : Bool) : Report :=
  ⟨.invalidOptionValue optionName optionValue, severity, forceable⟩

/-- Modelled from the spec: `reports.required_option_is_missing`; it takes
no severity or force argument, so it is always a non-forceable error. -/
def requiredOptionIsMissingRpt (optionName : String) : Report :=
  ⟨.requiredOptionIsMissing optionName, .error, false⟩

/-- Modelled from the spec: `reports.qdevice_already_defined`, always a
non-forceable error. -/
def qdeviceAlreadyDefinedRpt : Report := ⟨.qdeviceAlreadyDefined, .error, false⟩

/-- Modelled from the spec: `reports.qdevice_not_defined`, always a
non-forceable error. -/
def qdeviceNotDefinedRpt : Report := ⟨.qdeviceNotDefined, .error, false⟩

/-- An operation either raises a `LibraryError` carrying reports
(`processList` found an error, or a precondition failed), or it raises an
unhandled Python exception (an `IndexError`); in the latter case we record
the tree as it stood when the exception was raised. -/
inductive OpError where
  | reports (items : List Report)
  | crash (state : Section)

/-- True iff a finding list contains at least one error-severity finding. -/
def hasError (items : List Report) : Bool :=
  items.any (fun r => r.severity == .error)

/-- Modelled from the spec (section 7): `report_processor.process_list`
raises (aborts the call) iff the list contains at least one error-severity
finding. -/
def processList (items : List Report) : Except OpError Unit :=
  if hasError items then .error (.reports items) else .ok ()

/-! ## Query layer -/

/-- Translated from `ConfigFacade.get_nodes`: the data of one node section
(`ring0_addr`, `ring1_addr`, `name`, `nodeid`), each field the last value
seen among the section's attributes. -/
structure NodeAddresses where
  ring0_addr : Option String
  ring1_addr : Option String
  name : Option String
  nodeid : Option String
deriving DecidableEq, Repr

/-- Translated from `ConfigFacade.get_nodes`: build the node data from one
`node` section (later attribute occurrences overwrite earlier ones). -/
def nodeFromSection (s : Section) : NodeAddresses :=
  s.attributes.foldl
    (fun d p =>
      if p.1 == "ring0_addr" then { d with ring0_addr := some p.2 }
      else if p.1 == "ring1_addr" then { d with ring1_addr := some p.2 }
      else if p.1 == "name" then { d with name := some p.2 }
      else if p.1 == "nodeid" then { d with nodeid := some p.2 }
      else d)
    ⟨none, none, none, none⟩

/-- Translated from `ConfigFacade.get_nodes`: one entry per `node` section
of every `nodelist` section, in document order. -/
def get_nodes (root : Section) : List NodeAddresses :=
  (root.get_sections "nodelist").flatMap
    (fun nl => (nl.get_sections "node").map nodeFromSection)

/-- Number of configured nodes, `len(self.get_nodes())`. -/
def nodeCount (root : Section) : Nat := (get_nodes root).length

/-- Modelled from the spec (section 4.3): the node ids used by the
`tie_breaker` validation; `NodeAddresses.id` of the missing
`pcs.lib.node` module is the node's `nodeid`. -/
def nodeIds (root : Section) : List (Option String) :=
  (get_nodes root).map (fun n => n.nodeid)

/-- Translated from `ConfigFacade.QUORUM_OPTIONS`. -/
def QUORUM_OPTIONS : List String :=
  ["auto_tie_breaker", "last_man_standing", "last_man_standing_window", "wait_for_all"]

/-- Translated from `ConfigFacade.get_quorum_options`: scan every `quorum`
section in order and keep the last value seen for each recognized name. -/
def get_quorum_options (root : Section) : List Attr :=
  (root.get_sections "quorum").foldl
    (fun opts q =>
      q.attributes.foldl
        (fun opts a =>
          if QUORUM_OPTIONS.contains a.1 then setAttrList a.1 a.2 opts else opts)
        opts)
    []

/-- Translated from `ConfigFacade.has_quorum_device`: true iff some
`quorum/device` section carries a `model` attribute. -/
def has_quorum_device (root : Section) : Bool :=
  (root.get_sections "quorum").any fun q =>
    (q.get_sections "device").any fun d =>
      !(d.get_attributes "model").isEmpty

/-- Translated from `ConfigFacade.update_quorum_device` (lines 237-241):
the current model is the last `model` attribute value seen over all
`quorum/device` sections. -/
def currentModel (root : Section) : Option String :=
  (root.get_sections "quorum").foldl
    (fun m q =>
      (q.get_sections "device").foldl
        (fun m d => (d.get_attributes "model").foldl (fun _ a => some a.2) m)
        m)
    none

/-! ## Mutation helpers -/

/-- Helper for `__set_section_options`: delete every submitted key from a
section (the treatment of each section except the last). -/
def stripKeys (s : Section) (options : List Attr) : Section :=
  options.foldl (fun sec p => sec.del_attributes_by_name p.1) s

/-- Helper for `__set_section_options`: one step of the option-application
loop on the last section; an empty value deletes the key, any other value
sets it. -/
def optStep (sec : Section) (p : Attr) : Section :=
  if p.2 == "" then sec.del_attributes_by_name p.1
  else sec.set_attribute p.1 p.2

/-- Helper for `__set_section_options`: apply the submitted options to the
last section, in sorted key order. -/
def applyOptionsToLast (s : Section) (options : List Attr) : Section :=
  (sortPairs options).foldl optStep s

/-- Translated from `ConfigFacade.__set_section_options` for a nonempty
section list: strip the submitted keys from every section but the last,
then apply the submitted options to the last section. -/
def setSectionOptionsTotal (sections : List Section) (options : List Attr) :
    List Section :=
  match sections.getLast? with
  | none => []
  | some last =>
      sections.dropLast.map (fun s => stripKeys s options)
        ++ [applyOptionsToLast last options]

/-- Translated from `ConfigFacade.__set_section_options`, including the
Python behaviour on an empty section list: `section_list[-1]` raises an
`IndexError` (`none`) as soon as the first sorted option is processed. -/
def setSectionOptionsList (sections : List Section) (options : List Attr) :
    Option (List Section) :=
  if sections.isEmpty && !options.isEmpty then none
  else some (setSectionOptionsTotal sections options)

/-- Helper: rebuild a section, applying `f` to every child carrying the
given name (in-place mutation of the matching children). -/
def mapNamedChildren (s : Section) (name : String) (f : Section → Section) :
    Section :=
  .mk s.name s.attributes
    (s.children.map (fun c => if c.name == name then f c else c))

/-- Helper: replace the children carrying the given name, in order, by the
elements of `news` (the write-back of a transformed `get_sections` list). -/
def replaceNamedAux (name : String) : List Section → List Section → List Section
  | [], _ => []
  | c :: cs, news =>
    if c.name == name then
      match news with
      | [] => c :: replaceNamedAux name cs []
      | n :: ns => n :: replaceNamedAux name cs ns
    else c :: replaceNamedAux name cs news

/-- Helper: replace the children of `root` carrying the given name, in
order, by the elements of `news`. -/
def replaceNamedChildren (root : Section) (name : String) (news : List Section) :
    Section :=
  .mk root.name root.attributes (replaceNamedAux name root.children news)

/-- Helper: apply `f` to the last element of a list. -/
def mapLast (f : Section → Section) : List Section → List Section
  | [] => []
  | [a] => [f a]
  | a :: b :: rest => a :: mapLast f (b :: rest)

/-- Translated from `ConfigFacade.__ensure_section`: add a new empty
section under the parent when no section of that name exists; the callers
then work on `parent.get_sections(name)`, which is nonempty. -/
def ensure_section (parent : Section) (name : String) : Section :=
  if (parent.get_sections name).isEmpty then
    parent.add_section (.mk name [] [])
  else parent

/-- Helper: run `__set_section_options` on the children of `root` named
`name` and write the result back (callers guarantee at least one such child
exists, so the total variant is faithful). -/
def setOptionsOnNamed (root : Section) (name : String) (options : List Attr) :
    Section :=
  replaceNamedChildren root name
    (setSectionOptionsTotal (root.get_sections name) options)

/-! ## Invariant maintenance (`__update_two_node`) -/

/-- Translated from `ConfigFacade.__update_two_node` (lines 433-436): the
last `auto_tie_breaker` attribute seen across the `quorum` sections decides
(`!= "0"`); absent means false. -/
def autoTieBreaker (root : Section) : Bool :=
  ((root.get_sections "quorum").flatMap
      (fun q => q.get_attributes "auto_tie_breaker")).foldl
    (fun _ attr => attr.2 != "0") false

/-- Translated from `ConfigFacade.__update_two_node` (line 438): the
condition under which `two_node = "1"` is set — exactly two nodes,
`auto_tie_breaker` off (last value `"0"` or absent) and no quorum
device. -/
def twoNodeCond (s : Section) : Bool :=
  (nodeCount s == 2) && !autoTieBreaker s && !has_quorum_device s

/-- Translated from `ConfigFacade.__update_two_node` (lines 448-450): the
last `algorithm` attribute value of a `net` section (`none` if absent). -/
def lastAlgorithm (net : Section) : Option String :=
  (net.get_attributes "algorithm").foldl (fun _ a => some a.2) none

/-- Translated from `ConfigFacade.__update_two_node` (lines 448-454): the
algorithm rewrite of one `net` model sub-section, driven by the last
`algorithm` attribute value and the node count. -/
def updateNetSection (hasTwoNodes : Bool) (net : Section) : Section :=
  if lastAlgorithm net == some "lms" && hasTwoNodes then
    net.set_attribute "algorithm" "2nodelms"
  else if lastAlgorithm net == some "2nodelms" && !hasTwoNodes then
    net.set_attribute "algorithm" "lms"
  else net

/-- Translated from `ConfigFacade.__update_two_node` (lines 437-443): set
`two_node = "1"` through the merge rule when the condition holds (creating
a `quorum` section when none exists), else delete `two_node`
everywhere. -/
def twoNodePhase (root : Section) : Section :=
  if twoNodeCond root then
    setOptionsOnNamed (ensure_section root "quorum") "quorum"
      [("two_node", "1")]
  else
    mapNamedChildren root "quorum"
      (fun q => q.del_attributes_by_name "two_node")

/-- Translated from `ConfigFacade.__update_two_node` (lines 444-454): the
algorithm pass over every `quorum/device/net` section. -/
def phase2 (hasTwoNodes : Bool) (root : Section) : Section :=
  mapNamedChildren root "quorum" (fun q =>
    mapNamedChildren q "device" (fun d =>
      mapNamedChildren d "net" (updateNetSection hasTwoNodes)))

/-- Translated from `ConfigFacade.__update_two_node`: recompute `two_node`
from the node count, the last `auto_tie_breaker` value and quorum-device
presence, then rewrite the `algorithm` attribute of every
`quorum/device/net` section (the node count is read from the incoming
tree, before the `two_node` phase, exactly as the Python reads it once at
the top). -/
def update_two_node (root : Section) : Section :=
  phase2 (nodeCount root == 2) (twoNodePhase root)

/-! ## Quorum device settings query -/

/-- Helper: Python dict assignment `d[k] = v` on an insertion-ordered
association list (an existing key keeps its position). -/
def dictSet (d : List Attr) (k v : String) : List Attr :=
  if (d.map Prod.fst).contains k then
    d.map (fun p => if p.1 == k then (k, v) else p)
  else d ++ [(k, v)]

/-- Helper: Python `dict.get(k, default)` on an association list. -/
def dictGet (d : List (String × List Attr)) (k : String) : List Attr :=
  match d.filter (fun p => p.1 == k) with
  | [] => []
  | p :: _ => p.2

/-- Helper: `model_options.setdefault(name, {}).update(pairs)` on a
dict-of-dicts represented as a nested association list. -/
def dictUpdateNested (d : List (String × List Attr)) (k : String)
    (pairs : List Attr) : List (String × List Attr) :=
  if (d.map Prod.fst).contains k then
    d.map (fun p =>
      if p.1 == k then (k, pairs.foldl (fun m a => dictSet m a.1 a.2) p.2)
      else p)
  else d ++ [(k, pairs.foldl (fun m a => dictSet m a.1 a.2) [])]

/-- The flattened list of every `quorum/device` section, in document order
(the iteration order shared by `get_quorum_device_settings`,
`has_quorum_device` and `update_quorum_device`). -/
def deviceSections (root : Section) : List Section :=
  (root.get_sections "quorum").flatMap (fun q => q.get_sections "device")

/-- Translated from `ConfigFacade.update_quorum_device` (lines 256-261):
the flattened list of every `quorum/device/<model>` section. -/
def modelSections (root : Section) (model : String) : List Section :=
  (root.get_sections "quorum").flatMap
    (fun q => (q.get_sections "device").flatMap
      (fun d => d.get_sections model))

/-- Accumulator of `get_quorum_device_settings`. -/
structure DevSettingsAcc where
  model : Option String
  modelOpts : List (String × List Attr)
  genericOpts : List Attr

/-- Translated from `ConfigFacade.get_quorum_device_settings`: scan one
`device` section (its attributes, then its sub-sections). -/
def scanDevice (acc : DevSettingsAcc) (d : Section) : DevSettingsAcc :=
  let acc1 :=
    d.attributes.foldl
      (fun a p =>
        if p.1 == "model" then { a with model := some p.2 }
        else { a with genericOpts := dictSet a.genericOpts p.1 p.2 })
      acc
  d.children.foldl
    (fun a sub =>
      { a with modelOpts := dictUpdateNested a.modelOpts sub.name sub.attributes })
    acc1

/-- Translated from `ConfigFacade.get_quorum_device_settings`: aggregate
model, model options and generic options over all `quorum/device`
sections. -/
def get_quorum_device_settings (root : Section) :
    Option String × List Attr × List Attr :=
  let acc := (deviceSections root).foldl scanDevice ⟨none, [], []⟩
  (acc.model,
    (match acc.model with
     | some m => dictGet acc.modelOpts m
     | none => []),
    acc.genericOpts)

/-! ## Validation layer -/

/-- Translated from `ConfigFacade.__validate_quorum_options`: each
submitted name must be a known quorum option, `last_man_standing_window`
must be a digit string, every other option must be `"0"` or `"1"`; an empty
value (a deletion) skips the value checks. -/
def validate_quorum_options (options : List Attr) : List Report :=
  (sortPairs options).flatMap fun p =>
    if !(QUORUM_OPTIONS.contains p.1) then [invalidOptionRpt p.1 "quorum"]
    else if p.2 == "" then []
    else if p.1 == "last_man_standing_window" then
      if !pyIsDigit p.2 then [invalidOptionValueRpt p.1 p.2] else []
    else if !(["0", "1"].contains p.2) then [invalidOptionValueRpt p.1 p.2]
    else []

/-- Translated from `ConfigFacade.__validate_quorum_device_model`: only
`net` is allowed; the violation is a warning under `force_model`, an error
carrying a force code otherwise. -/
def validate_quorum_device_model (model : String) (force_model : Bool) :
    List Report :=
  if !(["net"].contains model) then
    [invalidOptionValueRptSev "model" model
      (if force_model then .warning else .error) (!force_model)]
  else []

/-- Required options of the `net` model (`__validate_quorum_device_model_net_options`). -/
def requiredNetOptions : List String := ["host"]

/-- Allowed options of the `net` model (required plus optional). -/
def allowedNetOptions : List String :=
  ["host", "algorithm", "connect_timeout", "force_ip_version", "port", "tie_breaker"]

/-- Translated from the per-item loop of
`ConfigFacade.__validate_quorum_device_model_net_options`: unknown keys are
forceable; an empty value on a required key is a (non-forceable)
missing-required report and still falls through to the value checks; an
empty value on a non-required key skips the value checks. -/
def netSeverity (force : Bool) : Severity :=
  if force then Severity.warning else Severity.error

def validateNetOptionItem (ids : List (Option String)) (force : Bool)
    (name value : String) : List Report :=
  if !(allowedNetOptions.contains name) then
    [invalidOptionRptSev name "quorum device model" (netSeverity force) (!force)]
  else if value == "" && !(requiredNetOptions.contains name) then []
  else
    (if value == "" && requiredNetOptions.contains name then
      [requiredOptionIsMissingRpt name]
     else [])
    ++ (if name == "algorithm"
          && !(["2nodelms", "ffsplit", "lms"].contains value) then
        [invalidOptionValueRptSev name value (netSeverity force) (!force)]
       else [])
    ++ (if name == "connect_timeout"
          && !(pyIsDigit value && decide (1000 ≤ toNatPy value)
                && decide (toNatPy value ≤ 120000)) then
        [invalidOptionValueRptSev name value (netSeverity force) (!force)]
       else [])
    ++ (if name == "force_ip_version"
          && !(["0", "4", "6"].contains value) then
        [invalidOptionValueRptSev name value (netSeverity force) (!force)]
       else [])
    ++ (if name == "port"
          && !(pyIsDigit value && decide (1 ≤ toNatPy value)
                && decide (toNatPy value ≤ 65535)) then
        [invalidOptionValueRptSev name value (netSeverity force) (!force)]
       else [])
    ++ (if name == "tie_breaker"
          && !(["lowest", "highest"].contains value
                || ids.contains (some value)) then
        [invalidOptionValueRptSev name value (netSeverity force) (!force)]
       else [])

/-- Translated from `ConfigFacade.__validate_quorum_device_model_options`
(dispatch) and `__validate_quorum_device_model_net_options` (the
missing-required pre-pass plus the per-item loop); models other than `net`
are not validated at all. -/
def validate_quorum_device_model_options (root : Section) (model : String)
    (options : List Attr) (needRequired force : Bool) : List Report :=
  if model == "net" then
    (if needRequired && !((options.map Prod.fst).contains "host") then
      [requiredOptionIsMissingRpt "host"]
     else [])
    ++ (sortPairs options).flatMap
        (fun p => validateNetOptionItem (nodeIds root) force p.1 p.2)
  else []

/-- Translated from `ConfigFacade.__validate_quorum_device_generic_options`:
only `sync_timeout` and `timeout` are allowed; an unknown key named `model`
is always a non-forceable error; nonempty values must be digit strings. -/
def validate_quorum_device_generic_options (options : List Attr)
    (force : Bool) : List Report :=
  (sortPairs options).flatMap fun p =>
    if !(["sync_timeout", "timeout"].contains p.1) then
      [invalidOptionRptSev p.1 "quorum device"
        (if p.1 == "model" then .error else netSeverity force)
        (if p.1 == "model" then false else !force)]
    else if p.2 == "" then []
    else if !pyIsDigit p.2 then
      [invalidOptionValueRptSev p.1 p.2 (netSeverity force) (!force)]
    else []

/-! ## Mutation operations

Every mutation is split into a "core" (validation plus the mutation
proper) and a wrapper that runs the unconditional invariant maintenance
(`__update_two_node`) and hygiene (`__remove_empty_sections`) pass, exactly
as each Python method does. -/

/-- Helper: delete every child section carrying the given name (the
`quorum.del_section(device)` loops of the source). -/
def delSectionsNamed (s : Section) (name : String) : Section :=
  .mk s.name s.attributes (s.children.filter (fun c => c.name != name))

/-- The unconditional tail of every mutation: invariant maintenance
followed by removal of empty sections. -/
def finishMutation (m : Section) : Section :=
  removeEmptySections (update_two_node m)

/-- The mutation proper of `ConfigFacade.set_quorum_options`: ensure a
`quorum` section exists and apply the multi-section merge rule. -/
def setQuorumMutation (root : Section) (options : List Attr) : Section :=
  setOptionsOnNamed (ensure_section root "quorum") "quorum" options

/-- Translated from `ConfigFacade.set_quorum_options`, up to invariant
maintenance: validate (raising on any error-severity finding), ensure a
`quorum` section exists, and apply the multi-section merge rule. -/
def set_quorum_options_core (root : Section) (options : List Attr) :
    Except OpError Section :=
  match processList (validate_quorum_options options) with
  | .error e => .error e
  | .ok _ => .ok (setQuorumMutation root options)

/-- Translated from `ConfigFacade.set_quorum_options`. -/
def set_quorum_options (root : Section) (options : List Attr) :
    Except OpError Section :=
  (set_quorum_options_core root options).map finishMutation

/-- The quorum-level options cleared by `ConfigFacade.add_quorum_device`. -/
def clearedQuorumOptions : List Attr :=
  [("allow_downscale", ""), ("auto_tie_breaker", ""), ("last_man_standing", ""),
    ("last_man_standing_window", ""), ("two_node", "")]

/-- The new `device` section built by `ConfigFacade.add_quorum_device`:
its generic options, then the `model` attribute, then one nested section
named after the model holding the model options. -/
def newDeviceSection (model : String)
    (model_options generic_options : List Attr) : Section :=
  ((applyOptionsToLast (.mk "device" [] []) generic_options).set_attribute
      "model" model).add_section
    (applyOptionsToLast (.mk model [] []) model_options)

/-- The mutation proper of `ConfigFacade.add_quorum_device`: clear the
conflicting quorum options, drop every existing `device` section, and add
the new `device` section under the last `quorum` section. -/
def addDeviceMutation (root : Section) (model : String)
    (model_options generic_options : List Attr) : Section :=
  let root1 := ensure_section root "quorum"
  let qs1 := setSectionOptionsTotal (root1.get_sections "quorum")
    clearedQuorumOptions
  let qs2 := qs1.map (fun q => delSectionsNamed q "device")
  let qs3 := mapLast
    (fun q => q.add_section (newDeviceSection model model_options generic_options))
    qs2
  replaceNamedChildren root1 "quorum" qs3

/-- Translated from `ConfigFacade.add_quorum_device`, up to invariant
maintenance: reject when a device exists, validate, clear the conflicting
quorum options, drop every existing `device` section, and build the new
`device` section (with its generic options, `model` attribute and nested
model section) under the last `quorum` section. -/
def add_quorum_device_core (root : Section) (model : String)
    (model_options generic_options : List Attr)
    (force_model force_options : Bool) : Except OpError Section :=
  if has_quorum_device root then .error (.reports [qdeviceAlreadyDefinedRpt])
  else
    match processList
        (validate_quorum_device_model model force_model
          ++ validate_quorum_device_model_options root model model_options
              true force_options
          ++ validate_quorum_device_generic_options generic_options
              force_options) with
    | .error e => .error e
    | .ok _ => .ok (addDeviceMutation root model model_options generic_options)

/-- Translated from `ConfigFacade.add_quorum_device`. -/
def add_quorum_device (root : Section) (model : String)
    (model_options generic_options : List Attr)
    (force_model force_options : Bool) : Except OpError Section :=
  (add_quorum_device_core root model model_options generic_options
      force_model force_options).map finishMutation

/-- Helper: replace the children of a list of sections carrying `name`, in
order, consuming the supplied replacements; returns the rebuilt list and
the unconsumed replacements. -/
def replaceNamedSeq (name : String) :
    List Section → List Section → List Section × List Section
  | [], news => ([], news)
  | c :: cs, news =>
    if c.name == name then
      match news with
      | [] =>
        let r := replaceNamedSeq name cs []
        (c :: r.1, r.2)
      | n :: ns =>
        let r := replaceNamedSeq name cs ns
        (n :: r.1, r.2)
    else
      let r := replaceNamedSeq name cs news
      (c :: r.1, r.2)

/-- Helper: write a transformed `deviceSections` list back into the tree
(the in-place mutation of the collected `device` sections). -/
def replaceDevicesInChildren :
    List Section → List Section → List Section × List Section
  | [], news => ([], news)
  | q :: qs, news =>
    if q.name == "quorum" then
      let d := replaceNamedSeq "device" q.children news
      let r := replaceDevicesInChildren qs d.2
      (Section.mk q.name q.attributes d.1 :: r.1, r.2)
    else
      let r := replaceDevicesInChildren qs news
      (q :: r.1, r.2)

/-- Helper: write back the transformed `device` sections of the whole
tree. -/
def replaceDevices (root : Section) (news : List Section) : Section :=
  .mk root.name root.attributes (replaceDevicesInChildren root.children news).1

/-- Helper: within the children of one `quorum` section, replace the
`<model>` sections nested in the `device` children, consuming the supplied
replacements. -/
def replaceModelInDevices (model : String) :
    List Section → List Section → List Section × List Section
  | [], news => ([], news)
  | d :: ds, news =>
    if d.name == "device" then
      let m := replaceNamedSeq model d.children news
      let r := replaceModelInDevices model ds m.2
      (Section.mk d.name d.attributes m.1 :: r.1, r.2)
    else
      let r := replaceModelInDevices model ds news
      (d :: r.1, r.2)

/-- Helper: write back the transformed `quorum/device/<model>` sections of
the whole tree. -/
def replaceModelInQuorums (model : String) :
    List Section → List Section → List Section × List Section
  | [], news => ([], news)
  | q :: qs, news =>
    if q.name == "quorum" then
      let d := replaceModelInDevices model q.children news
      let r := replaceModelInQuorums model qs d.2
      (Section.mk q.name q.attributes d.1 :: r.1, r.2)
    else
      let r := replaceModelInQuorums model qs news
      (q :: r.1, r.2)

/-- Helper: write back the transformed model sections of the whole tree. -/
def replaceModelSects (root : Section) (model : String)
    (news : List Section) : Section :=
  .mk root.name root.attributes (replaceModelInQuorums model root.children news).1

/-- The mutation proper of `ConfigFacade.update_quorum_device`: run the
merge rule over the flattened `device` section list, then over the
flattened `<model>` section list.  When one of those lists is empty and its
option dict is nonempty, Python's `section_list[-1]` raises an `IndexError`
(modelled as `crash`, carrying the tree as mutated so far). -/
def updateDeviceMutation (root : Section) (model : String)
    (model_options generic_options : List Attr) : Except OpError Section :=
  match setSectionOptionsList (deviceSections root) generic_options with
  | none => .error (.crash root)
  | some devs =>
    let root1 := replaceDevices root devs
    match setSectionOptionsList (modelSections root1 model) model_options with
    | none => .error (.crash root1)
    | some mods => .ok (replaceModelSects root1 model mods)

/-- Translated from `ConfigFacade.update_quorum_device`, up to invariant
maintenance: reject when no device exists, validate without the
required-option pre-pass, then run the merge rule over the flattened
section lists. -/
def update_quorum_device_core (root : Section)
    (model_options generic_options : List Attr) (force_options : Bool) :
    Except OpError Section :=
  if !has_quorum_device root then .error (.reports [qdeviceNotDefinedRpt])
  else
    let model := (currentModel root).getD ""
    match processList
        (validate_quorum_device_model_options root model model_options
            false force_options
          ++ validate_quorum_device_generic_options generic_options
              force_options) with
    | .error e => .error e
    | .ok _ => updateDeviceMutation root model model_options generic_options

/-- Translated from `ConfigFacade.update_quorum_device`. -/
def update_quorum_device (root : Section)
    (model_options generic_options : List Attr) (force_options : Bool) :
    Except OpError Section :=
  (update_quorum_device_core root model_options generic_options
      force_options).map finishMutation

/-- The mutation proper of `ConfigFacade.remove_quorum_device`: delete
every `device` section under every `quorum` section. -/
def removeDeviceMutation (root : Section) : Section :=
  mapNamedChildren root "quorum" (fun q => delSectionsNamed q "device")

/-- Translated from `ConfigFacade.remove_quorum_device`, up to invariant
maintenance: reject when no device exists, else delete every `device`
section under every `quorum` section. -/
def remove_quorum_device_core (root : Section) : Except OpError Section :=
  if !has_quorum_device root then .error (.reports [qdeviceNotDefinedRpt])
  else .ok (removeDeviceMutation root)

/-- Translated from `ConfigFacade.remove_quorum_device`. -/
def remove_quorum_device (root : Section) : Except OpError Section :=
  (remove_quorum_device_core root).map finishMutation

/-! ## Definitions used by the statements of the theorems -/

/-- The `quorum` sections of the configuration root, in document order. -/
def quorums (s : Section) : List Section := s.get_sections "quorum"

/-- The `quorum/device/net` sections of the configuration root, in document
order (the sections visited by the algorithm pass of
`__update_two_node`). -/
def netSections (s : Section) : List Section :=
  (s.get_sections "quorum").flatMap fun q =>
    (q.get_sections "device").flatMap fun d => d.get_sections "net"

/-- The concatenated `auto_tie_breaker` attributes of all `quorum`
sections, in document order (the stream folded by `__update_two_node`). -/
def atbStream (s : Section) : List Attr :=
  (s.get_sections "quorum").flatMap fun q =>
    q.get_attributes "auto_tie_breaker"

/-- The `two_node` attributes of the last `quorum` section (`none` when no
`quorum` section exists). -/
def lastQuorumTwoNode (s : Section) : Option (List Attr) :=
  ((s.get_sections "quorum").getLast?).map
    (fun q => q.get_attributes "two_node")

/-- Every `node` section of every `nodelist` section carries at least one
attribute (so the hygiene pass cannot drop it and change the node
count). -/
def nodeSectionsHaveAttrs (root : Section) : Prop :=
  ∀ nl ∈ root.get_sections "nodelist", ∀ nd ∈ nl.get_sections "node",
    nd.attributes ≠ []

/-! ### Concrete configuration trees used by witnesses and counterexamples -/

/-- A tree whose two `node` sections are empty: `get_nodes` counts them,
but the hygiene pass removes them. -/
def exEmptyNodes : Section :=
  .mk "" [] [.mk "nodelist" [] [.mk "node" [] [], .mk "node" [] []]]

/-- A two-node cluster with addressed nodes and no quorum section. -/
def exTwoNodes : Section :=
  .mk "" []
    [.mk "nodelist" []
      [.mk "node" [("ring0_addr", "a")] [], .mk "node" [("ring0_addr", "b")] []]]

/-- A two-node cluster with a `net` quorum device using `algorithm = lms`. -/
def exLmsDevice : Section :=
  .mk "" []
    [.mk "nodelist" []
      [.mk "node" [("ring0_addr", "a")] [], .mk "node" [("ring0_addr", "b")] []],
     .mk "quorum" []
      [.mk "device" [("model", "net")]
        [.mk "net" [("host", "h"), ("algorithm", "lms")] []]]]

/-- A tree with a quorum device whose `model` is `bogus` and which has no
sub-section named `bogus` (obtainable by a forced add followed by hygiene
pruning of the empty model section). -/
def exBogusDevice : Section :=
  .mk "" [] [.mk "quorum" [] [.mk "device" [("model", "bogus")] []]]

/-- A tree with two `quorum` sections, each defining `wait_for_all`. -/
def exTwoQuorums : Section :=
  .mk "" []
    [.mk "quorum" [("wait_for_all", "0"), ("x", "y")] [],
     .mk "quorum" [("wait_for_all", "0")] []]

/-! ## Lemmas: basic accessors -/

@[simp] theorem Section.name_mk (n a c) : (Section.mk n a c).name = n := rfl

@[simp] theorem Section.attributes_mk (n a c) :
    (Section.mk n a c).attributes = a := rfl

@[simp] theorem Section.children_mk (n a c) :
    (Section.mk n a c).children = c := rfl

/-! ## Lemmas: attribute lists -/

theorem filter_setAttrList_eq (k v : String) (l : List Attr) :
    (setAttrList k v l).filter (fun a => a.1 == k) = [(k, v)] := by
  induction l with
  | nil => simp [setAttrList]
  | cons a rest ih =>
    by_cases h : a.1 = k
    · simp only [setAttrList, h, beq_self_eq_true, if_true]
      simp only [List.filter_cons, beq_self_eq_true, if_pos]
      simp only [List.filter_filter]
      have : ∀ b : Attr, ((b.1 == k) && (b.1 != k)) = false := by
        intro b; by_cases hb : b.1 = k <;> simp [hb]
      rw [show (fun b : Attr => (b.1 == k) && (b.1 != k))
            = (fun _ : Attr => false) from funext this]
      simp
    · simp only [setAttrList, if_neg (by simpa using h)]
      simp [List.filter_cons, h, ih]

theorem filter_setAttrList_ne (k v k' : String) (h : k' ≠ k) (l : List Attr) :
    (setAttrList k v l).filter (fun a => a.1 == k')
      = l.filter (fun a => a.1 == k') := by
  induction l with
  | nil => simp [setAttrList, h, Ne.symm h]
  | cons a rest ih =>
    by_cases ha : a.1 = k
    · simp only [setAttrList, ha, beq_self_eq_true, if_true]
      simp only [List.filter_cons, List.filter_filter]
      have h1 : ((k : String) == k') = false := by simpa using Ne.symm h
      have h2 : ∀ b : Attr, ((b.1 == k') && (b.1 != k)) = (b.1 == k') := by
        intro b; by_cases hb : b.1 = k'
        · simp [hb, h]
        · simp [hb]
      rw [show (fun b : Attr => (b.1 == k') && (b.1 != k))
            = (fun b : Attr => b.1 == k') from funext h2]
      simp [ha, h1]
    · have hak : (a.1 == k) = false := by simpa using ha
      simp only [setAttrList, hak, Bool.false_eq_true, if_false]
      simp only [List.filter_cons, ih]

theorem filter_delAttr_eq (k : String) (l : List Attr) :
    (l.filter (fun a => a.1 != k)).filter (fun a => a.1 == k) = [] := by
  simp only [List.filter_filter]
  have : ∀ b : Attr, ((b.1 == k) && (b.1 != k)) = false := by
    intro b; by_cases hb : b.1 = k <;> simp [hb]
  rw [show (fun b : Attr => (b.1 == k) && (b.1 != k))
        = (fun _ : Attr => false) from funext this]
  simp

theorem filter_delAttr_ne (k k' : String) (h : k' ≠ k) (l : List Attr) :
    (l.filter (fun a => a.1 != k)).filter (fun a => a.1 == k')
      = l.filter (fun a => a.1 == k') := by
  simp only [List.filter_filter]
  have : ∀ b : Attr, ((b.1 == k') && (b.1 != k)) = (b.1 == k') := by
    intro b; by_cases hb : b.1 = k'
    · simp [hb, h]
    · simp [hb]
  rw [show (fun b : Attr => (b.1 == k') && (b.1 != k))
        = (fun b : Attr => b.1 == k') from funext this]

theorem setAttrList_fixpoint (k v : String) (l : List Attr)
    (h : l.filter (fun a => a.1 == k) = [(k, v)]) : setAttrList k v l = l := by
  induction l with
  | nil => simp at h
  | cons a rest ih =>
    by_cases ha : a.1 = k
    · have hmem : a = (k, v) := by
        simp only [List.filter_cons, ha, beq_self_eq_true, if_pos] at h
        exact (List.cons_eq_cons.mp h).1
      have hrest : rest.filter (fun a => a.1 == k) = [] := by
        simp only [List.filter_cons, ha, beq_self_eq_true, if_pos] at h
        exact (List.cons_eq_cons.mp h).2
      have : rest.filter (fun a => a.1 != k) = rest := by
        apply List.filter_eq_self.mpr
        intro b hb
        by_contra hbk
        have : b ∈ rest.filter (fun a => a.1 == k) :=
          List.mem_filter.mpr ⟨hb, by simpa using hbk⟩
        simp [hrest] at this
      simp [setAttrList, ha, this, hmem]
    · have hak : (a.1 == k) = false := by simpa using ha
      rw [List.filter_cons] at h
      simp only [hak, Bool.false_eq_true, if_false] at h
      simp only [setAttrList, hak, Bool.false_eq_true, if_false]
      rw [ih h]

theorem filter_eq_nil_delAttr_fixpoint (k : String) (l : List Attr)
    (h : l.filter (fun a => a.1 == k) = []) :
    l.filter (fun a => a.1 != k) = l := by
  apply List.filter_eq_self.mpr
  intro b hb
  by_contra hbk
  have : b ∈ l.filter (fun a => a.1 == k) :=
    List.mem_filter.mpr ⟨hb, by simpa using hbk⟩
  simp [h] at this

/-! ## Lemmas: section-level attribute operations -/

@[simp] theorem name_set_attribute (s : Section) (k v : String) :
    (s.set_attribute k v).name = s.name := rfl

@[simp] theorem children_set_attribute (s : Section) (k v : String) :
    (s.set_attribute k v).children = s.children := rfl

@[simp] theorem name_del_attributes (s : Section) (k : String) :
    (s.del_attributes_by_name k).name = s.name := rfl

@[simp] theorem children_del_attributes (s : Section) (k : String) :
    (s.del_attributes_by_name k).children = s.children := rfl

theorem get_attributes_set_attribute_self (s : Section) (k v : String) :
    (s.set_attribute k v).get_attributes k = [(k, v)] :=
  filter_setAttrList_eq k v s.attributes

theorem get_attributes_set_attribute_ne (s : Section) (k v k' : String)
    (h : k' ≠ k) :
    (s.set_attribute k v).get_attributes k' = s.get_attributes k' :=
  filter_setAttrList_ne k v k' h s.attributes

theorem get_attributes_del_self (s : Section) (k : String) :
    (s.del_attributes_by_name k).get_attributes k = [] :=
  filter_delAttr_eq k s.attributes

theorem get_attributes_del_ne (s : Section) (k k' : String) (h : k' ≠ k) :
    (s.del_attributes_by_name k).get_attributes k' = s.get_attributes k' :=
  filter_delAttr_ne k k' h s.attributes

theorem set_attribute_fixpoint (s : Section) (k v : String)
    (h : s.get_attributes k = [(k, v)]) : s.set_attribute k v = s := by
  cases s with
  | mk n a c =>
    simp only [Section.set_attribute]
    simp only [Section.attributes_mk, Section.name_mk, Section.children_mk]
    rw [setAttrList_fixpoint k v a h]

theorem del_attributes_fixpoint (s : Section) (k : String)
    (h : s.get_attributes k = []) : s.del_attributes_by_name k = s := by
  cases s with
  | mk n a c =>
    simp only [Section.del_attributes_by_name]
    simp only [Section.attributes_mk, Section.name_mk, Section.children_mk]
    rw [filter_eq_nil_delAttr_fixpoint k a h]

/-! ## Lemmas: sortPairs is a permutation -/

theorem insertPair_perm (p : Attr) (l : List Attr) :
    List.Perm (insertPair p l) (p :: l) := by
  induction l with
  | nil => exact List.Perm.refl _
  | cons q qs ih =>
    by_cases h : strLe p.1 q.1 = true
    · simp only [insertPair, h, if_true]
      exact List.Perm.refl _
    · simp only [insertPair, h, if_false]
      exact (ih.cons q).trans (List.Perm.swap p q qs)

theorem sortPairs_perm (l : List Attr) : List.Perm (sortPairs l) l := by
  induction l with
  | nil => exact List.Perm.refl _
  | cons p rest ih =>
    exact (insertPair_perm p (sortPairs rest)).trans (ih.cons p)

theorem mem_sortPairs {p : Attr} {l : List Attr} (h : p ∈ l) :
    p ∈ sortPairs l := (sortPairs_perm l).mem_iff.mpr h

theorem sortPairs_keys_nodup {l : List Attr}
    (h : (l.map Prod.fst).Nodup) : ((sortPairs l).map Prod.fst).Nodup :=
  (((sortPairs_perm l).map Prod.fst).nodup_iff).mpr h

/-! ## Lemmas: stripKeys and applyOptionsToLast -/

theorem name_stripKeys (s : Section) (opts : List Attr) :
    (stripKeys s opts).name = s.name := by
  induction opts generalizing s with
  | nil => rfl
  | cons p rest ih => simp [stripKeys] at ih ⊢; rw [ih]; rfl

theorem children_stripKeys (s : Section) (opts : List Attr) :
    (stripKeys s opts).children = s.children := by
  induction opts generalizing s with
  | nil => rfl
  | cons p rest ih => simp [stripKeys] at ih ⊢; rw [ih]; rfl

theorem get_attributes_stripKeys (s : Section) (opts : List Attr) (k : String) :
    (stripKeys s opts).get_attributes k
      = if k ∈ opts.map Prod.fst then [] else s.get_attributes k := by
  induction opts generalizing s with
  | nil => simp [stripKeys]
  | cons p rest ih =>
    have hstep : stripKeys s (p :: rest)
        = stripKeys (s.del_attributes_by_name p.1) rest := by
      simp [stripKeys]
    rw [hstep, ih]
    by_cases hk : k ∈ rest.map Prod.fst
    · simp [hk]
    · by_cases hkp : k = p.1
      · simp [hk, hkp, get_attributes_del_self]
      · simp [hk, hkp, get_attributes_del_ne s p.1 k hkp]

theorem stripKeys_fixpoint (s : Section) (opts : List Attr)
    (h : ∀ p ∈ opts, s.get_attributes p.1 = []) : stripKeys s opts = s := by
  induction opts with
  | nil => rfl
  | cons p rest ih =>
    have hstep : stripKeys s (p :: rest)
        = stripKeys (s.del_attributes_by_name p.1) rest := by
      simp [stripKeys]
    rw [hstep, del_attributes_fixpoint s p.1 (h p (List.mem_cons_self p rest))]
    exact ih (fun q hq => h q (List.mem_cons_of_mem p hq))

theorem name_optStep (s : Section) (p : Attr) : (optStep s p).name = s.name := by
  unfold optStep; split <;> rfl

theorem children_optStep (s : Section) (p : Attr) :
    (optStep s p).children = s.children := by
  unfold optStep; split <;> rfl

theorem name_foldl_optStep (l : List Attr) (s : Section) :
    (l.foldl optStep s).name = s.name := by
  induction l generalizing s with
  | nil => rfl
  | cons p rest ih => rw [List.foldl_cons, ih, name_optStep]

theorem children_foldl_optStep (l : List Attr) (s : Section) :
    (l.foldl optStep s).children = s.children := by
  induction l generalizing s with
  | nil => rfl
  | cons p rest ih => rw [List.foldl_cons, ih, children_optStep]

theorem get_attributes_optStep_ne (s : Section) (p : Attr) (k : String)
    (h : k ≠ p.1) : (optStep s p).get_attributes k = s.get_attributes k := by
  unfold optStep; split
  · exact get_attributes_del_ne s p.1 k h
  · exact get_attributes_set_attribute_ne s p.1 p.2 k h

theorem get_attributes_foldl_optStep_not_mem (l : List Attr) (s : Section)
    (k : String) (h : ¬ k ∈ l.map Prod.fst) :
    (l.foldl optStep s).get_attributes k = s.get_attributes k := by
  induction l generalizing s with
  | nil => rfl
  | cons p rest ih =>
    simp only [List.map_cons, List.mem_cons, not_or] at h
    rw [List.foldl_cons, ih _ h.2, get_attributes_optStep_ne s p k h.1]

theorem get_attributes_foldl_optStep_mem (l : List Attr) (s : Section)
    (k v : String) (hnd : (l.map Prod.fst).Nodup) (hm : (k, v) ∈ l) :
    (l.foldl optStep s).get_attributes k
      = if v = "" then [] else [(k, v)] := by
  induction l generalizing s with
  | nil => simp at hm
  | cons p rest ih =>
    simp only [List.map_cons, List.nodup_cons] at hnd
    rcases List.mem_cons.mp hm with hp | hp
    · have hk : ¬ k ∈ rest.map Prod.fst := by
        rw [← hp] at hnd; exact hnd.1
      rw [List.foldl_cons, get_attributes_foldl_optStep_not_mem rest _ k hk,
        ← hp]
      unfold optStep
      by_cases hv : v = ""
      · simp only [hv, beq_self_eq_true, if_true]
        simp [get_attributes_del_self, hv]
      · have : (v == "") = false := by simpa using hv
        simp only [this, Bool.false_eq_true, if_false]
        simp [get_attributes_set_attribute_self, hv]
    · have hk : k ∈ rest.map Prod.fst :=
        List.mem_map.mpr ⟨(k, v), hp, rfl⟩
      rw [List.foldl_cons]
      exact ih _ hnd.2 hp

theorem foldl_optStep_fixpoint (l : List Attr) (s : Section)
    (h : ∀ p ∈ l, (p.2 = "" ∧ s.get_attributes p.1 = [])
        ∨ (p.2 ≠ "" ∧ s.get_attributes p.1 = [p])) :
    l.foldl optStep s = s := by
  induction l with
  | nil => rfl
  | cons p rest ih =>
    have hstep : optStep s p = s := by
      rcases h p (List.mem_cons_self p rest) with ⟨hv, ha⟩ | ⟨hv, ha⟩
      · unfold optStep
        simp only [hv, beq_self_eq_true, if_true]
        exact del_attributes_fixpoint s p.1 ha
      · unfold optStep
        have : (p.2 == "") = false := by simpa using hv
        simp only [this, Bool.false_eq_true, if_false]
        exact set_attribute_fixpoint s p.1 p.2 (by
          have : ((p.1, p.2) : Attr) = p := rfl
          rw [this]; exact ha)
    rw [List.foldl_cons, hstep]
    exact ih (fun q hq => h q (List.mem_cons_of_mem p hq))

theorem name_applyOptionsToLast (s : Section) (opts : List Attr) :
    (applyOptionsToLast s opts).name = s.name := name_foldl_optStep _ s

theorem children_applyOptionsToLast (s : Section) (opts : List Attr) :
    (applyOptionsToLast s opts).children = s.children :=
  children_foldl_optStep _ s

theorem get_attributes_applyOptionsToLast_mem (s : Section)
    (opts : List Attr) (k v : String) (hnd : (opts.map Prod.fst).Nodup)
    (hm : (k, v) ∈ opts) :
    (applyOptionsToLast s opts).get_attributes k
      = if v = "" then [] else [(k, v)] :=
  get_attributes_foldl_optStep_mem _ s k v (sortPairs_keys_nodup hnd)
    (mem_sortPairs hm)

theorem get_attributes_applyOptionsToLast_not_mem (s : Section)
    (opts : List Attr) (k : String) (h : ¬ k ∈ opts.map Prod.fst) :
    (applyOptionsToLast s opts).get_attributes k = s.get_attributes k :=
  get_attributes_foldl_optStep_not_mem _ s k
    (fun hc => h (((sortPairs_perm opts).map Prod.fst).mem_iff.mp hc))

theorem applyOptionsToLast_fixpoint (s : Section) (opts : List Attr)
    (h : ∀ p ∈ opts, (p.2 = "" ∧ s.get_attributes p.1 = [])
        ∨ (p.2 ≠ "" ∧ s.get_attributes p.1 = [p])) :
    applyOptionsToLast s opts = s :=
  foldl_optStep_fixpoint _ s
    (fun p hp => h p ((sortPairs_perm opts).mem_iff.mp hp))

/-! ## Lemmas: mapNamedChildren, replaceNamedChildren, ensure_section -/

@[simp] theorem name_mapNamedChildren (s : Section) (n : String)
    (f : Section → Section) : (mapNamedChildren s n f).name = s.name := rfl

@[simp] theorem attributes_mapNamedChildren (s : Section) (n : String)
    (f : Section → Section) :
    (mapNamedChildren s n f).attributes = s.attributes := rfl

theorem filter_map_ite_eq (n : String) (f : Section → Section)
    (hf : ∀ c, (f c).name = c.name) (cs : List Section) :
    (cs.map (fun c => if c.name == n then f c else c)).filter
        (fun c => c.name == n)
      = (cs.filter (fun c => c.name == n)).map f := by
  induction cs with
  | nil => rfl
  | cons c cs ih =>
    rw [List.map_cons]
    by_cases h : c.name = n
    · rw [if_pos (show (c.name == n) = true by simp [h])]
      rw [List.filter_cons, List.filter_cons]
      rw [if_pos (show ((f c).name == n) = true by simp [hf, h])]
      rw [if_pos (show (c.name == n) = true by simp [h])]
      rw [List.map_cons, ih]
    · rw [if_neg (show ¬ (c.name == n) = true by simp [h])]
      rw [List.filter_cons, List.filter_cons]
      rw [if_neg (show ¬ (c.name == n) = true by simp [h]),
        if_neg (show ¬ (c.name == n) = true by simp [h])]
      exact ih

theorem filter_map_ite_ne (n n' : String) (hne : n' ≠ n)
    (f : Section → Section) (hf : ∀ c, (f c).name = c.name)
    (cs : List Section) :
    (cs.map (fun c => if c.name == n then f c else c)).filter
        (fun c => c.name == n')
      = cs.filter (fun c => c.name == n') := by
  induction cs with
  | nil => rfl
  | cons c cs ih =>
    rw [List.map_cons]
    by_cases h : c.name = n
    · rw [if_pos (show (c.name == n) = true by simp [h])]
      rw [List.filter_cons, List.filter_cons]
      rw [if_neg (show ¬ ((f c).name == n') = true by
            simp [hf, h]; exact fun e => hne e.symm)]
      rw [if_neg (show ¬ (c.name == n') = true by
            simp [h]; exact fun e => hne e.symm)]
      exact ih
    · rw [if_neg (show ¬ (c.name == n) = true by simp [h])]
      rw [List.filter_cons, List.filter_cons, ih]

theorem get_sections_mapNamedChildren_eq (s : Section) (n : String)
    (f : Section → Section) (hf : ∀ c, (f c).name = c.name) :
    (mapNamedChildren s n f).get_sections n = (s.get_sections n).map f :=
  filter_map_ite_eq n f hf s.children

theorem get_sections_mapNamedChildren_ne (s : Section) (n n' : String)
    (hne : n' ≠ n) (f : Section → Section)
    (hf : ∀ c, (f c).name = c.name) :
    (mapNamedChildren s n f).get_sections n' = s.get_sections n' :=
  filter_map_ite_ne n n' hne f hf s.children

theorem map_ite_id (n : String) (f : Section → Section) :
    ∀ cs : List Section, (∀ c ∈ cs, c.name = n → f c = c) →
      cs.map (fun c => if c.name == n then f c else c) = cs := by
  intro cs
  induction cs with
  | nil => intro _; rfl
  | cons c rest ih =>
    intro h
    simp only [List.map_cons]
    congr 1
    · by_cases hc : c.name = n
      · simp [hc, h c (List.mem_cons_self c rest) hc]
      · simp [hc]
    · exact ih (fun x hx => h x (List.mem_cons_of_mem c hx))

theorem mapNamedChildren_id (s : Section) (n : String)
    (f : Section → Section)
    (hf : ∀ c ∈ s.get_sections n, f c = c) : mapNamedChildren s n f = s := by
  cases s with
  | mk nm a cs =>
    simp only [mapNamedChildren, Section.name_mk, Section.attributes_mk,
      Section.children_mk]
    rw [map_ite_id n f cs (fun c hc hn =>
      hf c (List.mem_filter.mpr ⟨hc, by simp [hn]⟩))]

@[simp] theorem name_replaceNamedChildren (root : Section) (n : String)
    (news : List Section) : (replaceNamedChildren root n news).name = root.name := rfl

@[simp] theorem attributes_replaceNamedChildren (root : Section) (n : String)
    (news : List Section) :
    (replaceNamedChildren root n news).attributes = root.attributes := rfl

theorem replaceNamedAux_filter_eq (n : String) :
    ∀ (cs news : List Section), (∀ x ∈ news, x.name = n) →
      news.length = (cs.filter (fun c => c.name == n)).length →
      (replaceNamedAux n cs news).filter (fun c => c.name == n) = news := by
  intro cs
  induction cs with
  | nil =>
    intro news _ hlen
    simp only [List.filter_nil, List.length_nil] at hlen
    simp [replaceNamedAux, List.eq_nil_of_length_eq_zero hlen]
  | cons c cs ih =>
    intro news hnews hlen
    by_cases h : c.name = n
    · simp only [List.filter_cons, h, beq_self_eq_true, if_pos,
        List.length_cons] at hlen
      cases news with
      | nil => simp at hlen
      | cons x xs =>
        simp only [List.length_cons, Nat.succ_inj] at hlen
        have hx : x.name = n := hnews x (List.mem_cons_self x xs)
        simp only [replaceNamedAux, h, beq_self_eq_true, if_pos]
        simp only [List.filter_cons, hx, beq_self_eq_true, if_pos]
        rw [ih xs (fun y hy => hnews y (List.mem_cons_of_mem x hy)) hlen]
    · have hc : (c.name == n) = false := by simpa using h
      simp only [List.filter_cons, hc, Bool.false_eq_true, if_false] at hlen
      simp only [replaceNamedAux, hc, Bool.false_eq_true, if_false]
      simp only [List.filter_cons, hc, Bool.false_eq_true, if_false]
      exact ih news hnews hlen

theorem replaceNamedAux_filter_ne (n n' : String) (hne : n' ≠ n) :
    ∀ (cs news : List Section), (∀ x ∈ news, x.name = n) →
      (replaceNamedAux n cs news).filter (fun c => c.name == n')
        = cs.filter (fun c => c.name == n') := by
  intro cs
  induction cs with
  | nil => intro news _; simp [replaceNamedAux]
  | cons c cs ih =>
    intro news hnews
    by_cases h : c.name = n
    · cases news with
      | nil =>
        simp only [replaceNamedAux, h, beq_self_eq_true, if_pos]
        simp only [List.filter_cons]
        rw [ih [] (by simp)]
      | cons x xs =>
        have hx : x.name = n := hnews x (List.mem_cons_self x xs)
        simp only [replaceNamedAux, h, beq_self_eq_true, if_pos]
        rw [List.filter_cons, List.filter_cons]
        rw [if_neg (show ¬ (x.name == n') = true by
              rw [hx]; simpa using Ne.symm hne)]
        rw [if_neg (show ¬ (c.name == n') = true by
              rw [h]; simpa using Ne.symm hne)]
        exact ih xs (fun y hy => hnews y (List.mem_cons_of_mem x hy))
    · have hc : (c.name == n) = false := by simpa using h
      simp only [replaceNamedAux, hc, Bool.false_eq_true, if_false]
      simp only [List.filter_cons, ih news hnews]

theorem replaceNamedAux_self (n : String) :
    ∀ cs : List Section,
      replaceNamedAux n cs (cs.filter (fun c => c.name == n)) = cs := by
  intro cs
  induction cs with
  | nil => rfl
  | cons c cs ih =>
    by_cases h : c.name = n
    · simp only [List.filter_cons, h, beq_self_eq_true, if_pos]
      simp only [replaceNamedAux, h, beq_self_eq_true, if_pos, ih]
    · have hc : (c.name == n) = false := by simpa using h
      simp only [List.filter_cons, hc, Bool.false_eq_true, if_false]
      simp only [replaceNamedAux, hc, Bool.false_eq_true, if_false, ih]

theorem get_sections_replaceNamedChildren_eq (root : Section) (n : String)
    (news : List Section) (hnews : ∀ x ∈ news, x.name = n)
    (hlen : news.length = (root.get_sections n).length) :
    (replaceNamedChildren root n news).get_sections n = news :=
  replaceNamedAux_filter_eq n root.children news hnews hlen

theorem get_sections_replaceNamedChildren_ne (root : Section) (n n' : String)
    (hne : n' ≠ n) (news : List Section)
    (hnews : ∀ x ∈ news, x.name = n) :
    (replaceNamedChildren root n news).get_sections n' = root.get_sections n' :=
  replaceNamedAux_filter_ne n n' hne root.children news hnews

theorem replaceNamedChildren_self (root : Section) (n : String) :
    replaceNamedChildren root n (root.get_sections n) = root := by
  cases root with
  | mk nm a cs =>
    simp only [replaceNamedChildren, Section.name_mk, Section.attributes_mk,
      Section.children_mk]
    rw [show (Section.mk nm a cs).get_sections n
          = cs.filter (fun c => c.name == n) from rfl]
    rw [replaceNamedAux_self n cs]

/-! ## Lemmas: add_section, ensure_section, setSectionOptionsTotal, mapLast -/

@[simp] theorem name_add_section (s c : Section) :
    (s.add_section c).name = s.name := rfl

@[simp] theorem attributes_add_section (s c : Section) :
    (s.add_section c).attributes = s.attributes := rfl

theorem get_sections_add_section (s c : Section) (n : String) :
    (s.add_section c).get_sections n
      = s.get_sections n ++ (if c.name == n then [c] else []) := by
  cases s with
  | mk nm a cs =>
    show (cs ++ [c]).filter (fun x => x.name == n)
        = cs.filter (fun x => x.name == n) ++ _
    rw [List.filter_append]
    congr 1
    by_cases h : c.name = n
    · rw [if_pos (show (c.name == n) = true by simp [h])]
      simp [h]
    · rw [if_neg (show ¬ (c.name == n) = true by simp [h])]
      simp [h]

theorem ensure_section_of_nonempty (parent : Section) (n : String)
    (h : parent.get_sections n ≠ []) : ensure_section parent n = parent := by
  unfold ensure_section
  rw [if_neg (by simpa using h)]

theorem get_sections_ensure_section_nil (parent : Section) (n : String)
    (h : parent.get_sections n = []) :
    (ensure_section parent n).get_sections n = [Section.mk n [] []] := by
  unfold ensure_section
  rw [if_pos (by simpa using h), get_sections_add_section, h]
  simp

theorem get_sections_ensure_section_ne (parent : Section) (n n' : String)
    (hne : n' ≠ n) :
    (ensure_section parent n).get_sections n' = parent.get_sections n' := by
  unfold ensure_section
  split
  · rw [get_sections_add_section]
    rw [if_neg (show ¬ ((Section.mk n [] []).name == n') = true by
          simp; exact fun e => hne e.symm)]
    simp
  · rfl

theorem attributes_ensure_section (parent : Section) (n : String) :
    (ensure_section parent n).attributes = parent.attributes := by
  unfold ensure_section; split <;> rfl

theorem name_ensure_section (parent : Section) (n : String) :
    (ensure_section parent n).name = parent.name := by
  unfold ensure_section; split <;> rfl

theorem get_sections_ensure_section_ne_nil (parent : Section) (n : String) :
    (ensure_section parent n).get_sections n ≠ [] := by
  by_cases h : parent.get_sections n = []
  · rw [get_sections_ensure_section_nil parent n h]; simp
  · rw [ensure_section_of_nonempty parent n h]; exact h

theorem setSectionOptionsTotal_concat (xs : List Section) (x : Section)
    (opts : List Attr) :
    setSectionOptionsTotal (xs ++ [x]) opts
      = xs.map (fun s => stripKeys s opts) ++ [applyOptionsToLast x opts] := by
  unfold setSectionOptionsTotal
  rw [List.getLast?_concat, List.dropLast_concat]

theorem setSectionOptionsTotal_names (l : List Section) (opts : List Attr)
    (n : String) (h : ∀ y ∈ l, y.name = n) :
    ∀ x ∈ setSectionOptionsTotal l opts, x.name = n := by
  rcases List.eq_nil_or_concat' l with rfl | ⟨xs, x, rfl⟩
  · intro x hx; simp [setSectionOptionsTotal] at hx
  · rw [setSectionOptionsTotal_concat]
    intro y hy
    rcases List.mem_append.mp hy with hy | hy
    · rcases List.mem_map.mp hy with ⟨z, hz, rfl⟩
      rw [name_stripKeys]
      exact h z (List.mem_append.mpr (Or.inl hz))
    · rcases List.mem_singleton.mp hy with rfl
      rw [name_applyOptionsToLast]
      exact h x (List.mem_append.mpr (Or.inr (List.mem_singleton.mpr rfl)))

theorem setSectionOptionsTotal_length (l : List Section) (opts : List Attr) :
    (setSectionOptionsTotal l opts).length = l.length := by
  rcases List.eq_nil_or_concat' l with rfl | ⟨xs, x, rfl⟩
  · rfl
  · rw [setSectionOptionsTotal_concat]
    simp

theorem mapLast_concat (f : Section → Section) (xs : List Section)
    (x : Section) : mapLast f (xs ++ [x]) = xs ++ [f x] := by
  induction xs with
  | nil => rfl
  | cons y ys ih =>
    cases ys with
    | nil => rfl
    | cons z zs => simpa [mapLast] using ih

/-! ## Lemmas: removeEmptySections -/

theorem pruneChildren_cons (c : Section) (cs : List Section) :
    pruneChildren (c :: cs)
      = if (removeEmptySections c).empty then pruneChildren cs
        else removeEmptySections c :: pruneChildren cs := rfl

theorem pruneChildren_eq (cs : List Section) :
    pruneChildren cs
      = (cs.map removeEmptySections).filter (fun c => !c.empty) := by
  induction cs with
  | nil => rfl
  | cons c cs ih =>
    rw [pruneChildren_cons, List.map_cons, List.filter_cons]
    by_cases h : (removeEmptySections c).empty = true
    · rw [if_pos h, if_neg (by simp [h]), ih]
    · rw [if_neg h, if_pos (by simp [h]), ih]

theorem removeEmptySections_mk (n : String) (a : List Attr)
    (cs : List Section) :
    removeEmptySections (.mk n a cs) = .mk n a (pruneChildren cs) := rfl

theorem name_removeEmptySections (s : Section) :
    (removeEmptySections s).name = s.name := by cases s; rfl

theorem attributes_removeEmptySections (s : Section) :
    (removeEmptySections s).attributes = s.attributes := by cases s; rfl

theorem get_attributes_removeEmptySections (s : Section) (k : String) :
    (removeEmptySections s).get_attributes k = s.get_attributes k := by
  cases s; rfl

theorem get_sections_removeEmptySections (s : Section) (n : String) :
    (removeEmptySections s).get_sections n
      = ((s.get_sections n).map removeEmptySections).filter
          (fun c => !c.empty) := by
  cases s with
  | mk nm a cs =>
    show (pruneChildren cs).filter (fun c => c.name == n) = _
    rw [pruneChildren_eq, List.filter_comm]
    have key : (cs.map removeEmptySections).filter (fun c => c.name == n)
        = (cs.filter (fun c => c.name == n)).map removeEmptySections := by
      rw [List.filter_map]
      congr 1
      congr 1
      funext c
      show ((removeEmptySections c).name == n) = (c.name == n)
      rw [name_removeEmptySections]
    rw [key]
    rfl

mutual

theorem removeEmptySections_idem (s : Section) :
    removeEmptySections (removeEmptySections s) = removeEmptySections s := by
  cases s with
  | mk n a cs =>
    rw [removeEmptySections_mk, removeEmptySections_mk,
      pruneChildren_idem cs]

theorem pruneChildren_idem (cs : List Section) :
    pruneChildren (pruneChildren cs) = pruneChildren cs := by
  cases cs with
  | nil => rfl
  | cons c rest =>
    rw [pruneChildren_cons]
    by_cases h : (removeEmptySections c).empty = true
    · rw [if_pos h, pruneChildren_idem rest]
    · rw [if_neg h, pruneChildren_cons, removeEmptySections_idem c,
        if_neg h, pruneChildren_idem rest]

end

/-! ## Lemmas: the report processor and operation dispatch -/

theorem processList_of_hasError {items : List Report}
    (h : hasError items = true) :
    processList items = .error (.reports items) := by
  unfold processList; rw [if_pos h]

theorem processList_of_not_hasError {items : List Report}
    (h : hasError items = false) : processList items = .ok () := by
  unfold processList; rw [h]; rfl

theorem hasError_of_mem {items : List Report} {r : Report} (hm : r ∈ items)
    (hs : r.severity = .error) : hasError items = true :=
  List.any_eq_true.mpr ⟨r, hm, by simp [hs]⟩

theorem hasError_append (a b : List Report) :
    hasError (a ++ b) = (hasError a || hasError b) := List.any_append

theorem set_quorum_options_error {root : Section} {opts : List Attr}
    (h : hasError (validate_quorum_options opts) = true) :
    set_quorum_options root opts
      = .error (.reports (validate_quorum_options opts)) := by
  unfold set_quorum_options set_quorum_options_core
  rw [processList_of_hasError h]
  rfl

theorem set_quorum_options_ok {root : Section} {opts : List Attr}
    (h : hasError (validate_quorum_options opts) = false) :
    set_quorum_options root opts
      = .ok (finishMutation (setQuorumMutation root opts)) := by
  unfold set_quorum_options set_quorum_options_core
  rw [processList_of_not_hasError h]
  rfl

/-- The full validation list of `add_quorum_device`. -/
theorem add_quorum_device_already {root : Section} {model : String}
    {mo go : List Attr} {fm fo : Bool}
    (h : has_quorum_device root = true) :
    add_quorum_device root model mo go fm fo
      = .error (.reports [qdeviceAlreadyDefinedRpt]) := by
  unfold add_quorum_device add_quorum_device_core
  rw [if_pos h]
  rfl

theorem add_quorum_device_error {root : Section} {model : String}
    {mo go : List Attr} {fm fo : Bool}
    (hnd : has_quorum_device root = false)
    (h : hasError (validate_quorum_device_model model fm
        ++ validate_quorum_device_model_options root model mo true fo
        ++ validate_quorum_device_generic_options go fo) = true) :
    add_quorum_device root model mo go fm fo
      = .error (.reports (validate_quorum_device_model model fm
          ++ validate_quorum_device_model_options root model mo true fo
          ++ validate_quorum_device_generic_options go fo)) := by
  unfold add_quorum_device add_quorum_device_core
  rw [hnd]
  simp only [Bool.false_eq_true, if_false]
  rw [processList_of_hasError h]
  rfl

theorem add_quorum_device_ok {root : Section} {model : String}
    {mo go : List Attr} {fm fo : Bool}
    (hnd : has_quorum_device root = false)
    (h : hasError (validate_quorum_device_model model fm
        ++ validate_quorum_device_model_options root model mo true fo
        ++ validate_quorum_device_generic_options go fo) = false) :
    add_quorum_device root model mo go fm fo
      = .ok (finishMutation (addDeviceMutation root model mo go)) := by
  unfold add_quorum_device add_quorum_device_core
  rw [hnd]
  simp only [Bool.false_eq_true, if_false]
  rw [processList_of_not_hasError h]
  rfl

theorem update_quorum_device_not_defined {root : Section}
    {mo go : List Attr} {fo : Bool}
    (h : has_quorum_device root = false) :
    update_quorum_device root mo go fo
      = .error (.reports [qdeviceNotDefinedRpt]) := by
  unfold update_quorum_device update_quorum_device_core
  rw [h]
  rfl

theorem update_quorum_device_error {root : Section} {mo go : List Attr}
    {fo : Bool} (hd : has_quorum_device root = true)
    (h : hasError
        (validate_quorum_device_model_options root
            ((currentModel root).getD "") mo false fo
          ++ validate_quorum_device_generic_options go fo) = true) :
    update_quorum_device root mo go fo
      = .error (.reports
          (validate_quorum_device_model_options root
              ((currentModel root).getD "") mo false fo
            ++ validate_quorum_device_generic_options go fo)) := by
  unfold update_quorum_device update_quorum_device_core
  rw [hd]
  simp only [Bool.not_true, Bool.false_eq_true, if_false]
  rw [processList_of_hasError h]
  rfl

theorem update_quorum_device_run {root : Section} {mo go : List Attr}
    {fo : Bool} (hd : has_quorum_device root = true)
    (h : hasError
        (validate_quorum_device_model_options root
            ((currentModel root).getD "") mo false fo
          ++ validate_quorum_device_generic_options go fo) = false) :
    update_quorum_device root mo go fo
      = (updateDeviceMutation root ((currentModel root).getD "") mo go).map
          finishMutation := by
  unfold update_quorum_device update_quorum_device_core
  rw [hd]
  simp only [Bool.not_true, Bool.false_eq_true, if_false]
  rw [processList_of_not_hasError h]

theorem remove_quorum_device_not_defined {root : Section}
    (h : has_quorum_device root = false) :
    remove_quorum_device root = .error (.reports [qdeviceNotDefinedRpt]) := by
  unfold remove_quorum_device remove_quorum_device_core
  rw [h]
  rfl

theorem remove_quorum_device_ok {root : Section}
    (h : has_quorum_device root = true) :
    remove_quorum_device root
      = .ok (finishMutation (removeDeviceMutation root)) := by
  unfold remove_quorum_device remove_quorum_device_core
  rw [h]
  rfl

/-! ## Claim C5 -/

/-- C5: for every tree and every argument combination (force flags
included), `add_quorum_device` raises the non-forceable
device-already-defined error whenever a quorum device is present, and
`update_quorum_device` / `remove_quorum_device` raise the non-forceable
device-not-defined error whenever none is; in each case the operation
returns only the error, so the caller's tree is untouched. -/
theorem c5_preconditions :
    (∀ (root : Section) (model : String) (mo go : List Attr) (fm fo : Bool),
        has_quorum_device root = true →
        add_quorum_device root model mo go fm fo
          = .error (.reports [qdeviceAlreadyDefinedRpt]))
    ∧ (∀ (root : Section) (mo go : List Attr) (fo : Bool),
        has_quorum_device root = false →
        update_quorum_device root mo go fo
          = .error (.reports [qdeviceNotDefinedRpt]))
    ∧ (∀ root : Section, has_quorum_device root = false →
        remove_quorum_device root = .error (.reports [qdeviceNotDefinedRpt]))
    ∧ qdeviceAlreadyDefinedRpt.severity = .error
    ∧ qdeviceAlreadyDefinedRpt.forceable = false
    ∧ qdeviceNotDefinedRpt.severity = .error
    ∧ qdeviceNotDefinedRpt.forceable = false :=
  ⟨fun _ _ _ _ _ _ h => add_quorum_device_already h,
   fun _ _ _ _ h => update_quorum_device_not_defined h,
   fun _ h => remove_quorum_device_not_defined h, rfl, rfl, rfl, rfl⟩

/-- Witness for C5 at concrete inputs. -/
theorem c5_preconditions_witness :
    has_quorum_device exBogusDevice = true
    ∧ has_quorum_device exTwoNodes = false
    ∧ add_quorum_device exBogusDevice "net" [("host", "h")] [] true true
        = .error (.reports [qdeviceAlreadyDefinedRpt])
    ∧ update_quorum_device exTwoNodes [] [] true
        = .error (.reports [qdeviceNotDefinedRpt])
    ∧ remove_quorum_device exTwoNodes
        = .error (.reports [qdeviceNotDefinedRpt]) :=
  ⟨rfl, rfl,
   c5_preconditions.1 exBogusDevice "net" [("host", "h")] [] true true rfl,
   c5_preconditions.2.1 exTwoNodes [] [] true rfl,
   c5_preconditions.2.2.1 exTwoNodes rfl⟩

/-! ## Claim C10 -/

/-- C10: every finding produced by `set_quorum_options` validation has
error severity and no force code (there is no downgrade path), so the call
aborts exactly when the finding list is nonempty and never proceeds with a
warning. -/
theorem c10_quorum_option_findings_always_error (options : List Attr) :
    (∀ r ∈ validate_quorum_options options,
        r.severity = .error ∧ r.forceable = false)
    ∧ (∀ root : Section,
        (validate_quorum_options options = [] →
          set_quorum_options root options
            = .ok (finishMutation (setQuorumMutation root options)))
        ∧ (validate_quorum_options options ≠ [] →
          set_quorum_options root options
            = .error (.reports (validate_quorum_options options)))) := by
  have hall : ∀ r ∈ validate_quorum_options options,
      r.severity = .error ∧ r.forceable = false := by
    intro r hr
    unfold validate_quorum_options at hr
    rcases List.mem_flatMap.mp hr with ⟨p, hp, hrp⟩
    split at hrp
    · rcases List.mem_singleton.mp hrp with rfl; exact ⟨rfl, rfl⟩
    · split at hrp
      · exact (List.not_mem_nil r hrp).elim
      · split at hrp
        · split at hrp
          · rcases List.mem_singleton.mp hrp with rfl; exact ⟨rfl, rfl⟩
          · exact (List.not_mem_nil r hrp).elim
        · split at hrp
          · rcases List.mem_singleton.mp hrp with rfl; exact ⟨rfl, rfl⟩
          · exact (List.not_mem_nil r hrp).elim
  refine ⟨hall, fun root => ⟨?_, ?_⟩⟩
  · intro h
    exact set_quorum_options_ok (by unfold hasError; rw [h]; rfl)
  · intro h
    rcases List.exists_mem_of_ne_nil _ h with ⟨r, hr⟩
    exact set_quorum_options_error (hasError_of_mem hr (hall r hr).1)

/-- Witness for C10: a submitted unknown option aborts the call with an
error-severity finding. -/
theorem c10_quorum_option_findings_witness :
    (∀ r ∈ validate_quorum_options [("bad", "1")],
        r.severity = .error ∧ r.forceable = false)
    ∧ validate_quorum_options [("bad", "1")] ≠ []
    ∧ set_quorum_options exTwoNodes [("bad", "1")]
        = .error (.reports (validate_quorum_options [("bad", "1")])) :=
  ⟨(c10_quorum_option_findings_always_error [("bad", "1")]).1,
   by decide,
   ((c10_quorum_option_findings_always_error [("bad", "1")]).2
      exTwoNodes).2 (by decide)⟩

/-! ## Lemmas: net model option validation -/

theorem validate_quorum_device_model_net (fm : Bool) :
    validate_quorum_device_model "net" fm = [] := rfl

theorem validateNetOptionItem_host_empty (ids : List (Option String))
    (force : Bool) :
    validateNetOptionItem ids force "host" ""
      = [requiredOptionIsMissingRpt "host"] := rfl

theorem validate_net_options_unfold (root : Section) (mo : List Attr)
    (needRequired force : Bool) :
    validate_quorum_device_model_options root "net" mo needRequired force
      = (if needRequired && !((mo.map Prod.fst).contains "host") then
          [requiredOptionIsMissingRpt "host"]
         else [])
        ++ (sortPairs mo).flatMap
            (fun p => validateNetOptionItem (nodeIds root) force p.1 p.2) := rfl

theorem validateNetOptionItem_no_missing (ids : List (Option String))
    (force : Bool) (name value : String) (hname : name ≠ "host") :
    ∀ r ∈ validateNetOptionItem ids force name value,
      ∀ x, r.kind ≠ .requiredOptionIsMissing x := by
  intro r hr x
  unfold validateNetOptionItem at hr
  split at hr
  · rcases List.mem_singleton.mp hr with rfl
    intro hk; cases hk
  · split at hr
    · exact (List.not_mem_nil r hr).elim
    · simp only [List.mem_append] at hr
      rcases hr with ((((hr | hr) | hr) | hr) | hr) | hr
      · split at hr
        · next hcond =>
          simp only [requiredNetOptions, Bool.and_eq_true] at hcond
          have : name = "host" := by simpa using hcond.2
          exact (hname this).elim
        · exact (List.not_mem_nil r hr).elim
      all_goals
        (split at hr
         · rcases List.mem_singleton.mp hr with rfl
           intro hk; cases hk
         · exact (List.not_mem_nil r hr).elim)

/-! ## Claim C4 -/

/-- C4: for model `net`, `add_quorum_device` always fails with the
non-forceable missing-required-option(`host`) finding when `host` is absent
or submitted empty, force flags notwithstanding; `update_quorum_device`
never re-checks the presence of `host` (no missing-required finding can
arise when `host` is not submitted), but submitting `host` with an empty
value on update still raises the missing-required-option error. -/
theorem c4_required_host :
    (∀ (root : Section) (mo go : List Attr) (fm fo : Bool),
        has_quorum_device root = false → ¬ "host" ∈ mo.map Prod.fst →
        ∃ items, add_quorum_device root "net" mo go fm fo
            = .error (.reports items)
          ∧ requiredOptionIsMissingRpt "host" ∈ items)
    ∧ (∀ (root : Section) (mo go : List Attr) (fm fo : Bool),
        has_quorum_device root = false → ("host", "") ∈ mo →
        ∃ items, add_quorum_device root "net" mo go fm fo
            = .error (.reports items)
          ∧ requiredOptionIsMissingRpt "host" ∈ items)
    ∧ (∀ (root : Section) (mo : List Attr) (fo : Bool),
        ¬ "host" ∈ mo.map Prod.fst →
        ∀ r ∈ validate_quorum_device_model_options root "net" mo false fo,
          ∀ x, r.kind ≠ .requiredOptionIsMissing x)
    ∧ (∀ (root : Section) (mo go : List Attr) (fo : Bool),
        has_quorum_device root = true → currentModel root = some "net" →
        ("host", "") ∈ mo →
        ∃ items, update_quorum_device root mo go fo
            = .error (.reports items)
          ∧ requiredOptionIsMissingRpt "host" ∈ items)
    ∧ (requiredOptionIsMissingRpt "host").severity = .error
    ∧ (requiredOptionIsMissingRpt "host").forceable = false := by
  have hmem_empty : ∀ (root : Section) (mo : List Attr) (nr fo : Bool),
      ("host", "") ∈ mo →
      requiredOptionIsMissingRpt "host"
        ∈ validate_quorum_device_model_options root "net" mo nr fo := by
    intro root mo nr fo hm
    rw [validate_net_options_unfold]
    apply List.mem_append.mpr
    right
    apply List.mem_flatMap.mpr
    refine ⟨("host", ""), mem_sortPairs hm, ?_⟩
    rw [validateNetOptionItem_host_empty]
    exact List.mem_singleton.mpr rfl
  have hmem_absent : ∀ (root : Section) (mo : List Attr) (fo : Bool),
      ¬ "host" ∈ mo.map Prod.fst →
      requiredOptionIsMissingRpt "host"
        ∈ validate_quorum_device_model_options root "net" mo true fo := by
    intro root mo fo hm
    rw [validate_net_options_unfold]
    apply List.mem_append.mpr
    left
    have hc : (mo.map Prod.fst).contains "host" = false := by simpa using hm
    rw [if_pos (show (true && !((mo.map Prod.fst).contains "host")) = true by
          rw [hc]; rfl)]
    exact List.mem_singleton.mpr rfl
  refine ⟨?_, ?_, ?_, ?_, rfl, rfl⟩
  · intro root mo go fm fo hnd hm
    have hmm := hmem_absent root mo fo hm
    have hin : requiredOptionIsMissingRpt "host"
        ∈ validate_quorum_device_model "net" fm
          ++ validate_quorum_device_model_options root "net" mo true fo
          ++ validate_quorum_device_generic_options go fo :=
      List.mem_append.mpr (Or.inl (List.mem_append.mpr (Or.inr hmm)))
    exact ⟨_, add_quorum_device_error hnd (hasError_of_mem hin rfl), hin⟩
  · intro root mo go fm fo hnd hm
    have hmm := hmem_empty root mo true fo hm
    have hin : requiredOptionIsMissingRpt "host"
        ∈ validate_quorum_device_model "net" fm
          ++ validate_quorum_device_model_options root "net" mo true fo
          ++ validate_quorum_device_generic_options go fo :=
      List.mem_append.mpr (Or.inl (List.mem_append.mpr (Or.inr hmm)))
    exact ⟨_, add_quorum_device_error hnd (hasError_of_mem hin rfl), hin⟩
  · intro root mo fo hm r hr x
    rw [validate_net_options_unfold] at hr
    simp only [Bool.false_and, Bool.false_eq_true, if_false,
      List.nil_append] at hr
    rcases List.mem_flatMap.mp hr with ⟨p, hp, hrp⟩
    have hp1 : p.1 ≠ "host" := by
      intro e
      exact hm (List.mem_map.mpr ⟨p, (sortPairs_perm mo).mem_iff.mp hp, e⟩)
    exact validateNetOptionItem_no_missing (nodeIds root) fo p.1 p.2 hp1 r hrp x
  · intro root mo go fo hd hmodel hm
    have hmm := hmem_empty root mo false fo hm
    have hg : (currentModel root).getD "" = "net" := by rw [hmodel]; rfl
    have hin : requiredOptionIsMissingRpt "host"
        ∈ validate_quorum_device_model_options root
            ((currentModel root).getD "") mo false fo
          ++ validate_quorum_device_generic_options go fo := by
      rw [hg]
      exact List.mem_append.mpr (Or.inl hmm)
    exact ⟨_, update_quorum_device_error hd (hasError_of_mem hin rfl), hin⟩

/-- Witness for C4: a forced add with no `host`, and an update clearing
`host`, both fail with the missing-required-option error. -/
theorem c4_required_host_witness :
    has_quorum_device exTwoNodes = false
    ∧ (∃ items, add_quorum_device exTwoNodes "net" [] [] false true
          = .error (.reports items)
        ∧ requiredOptionIsMissingRpt "host" ∈ items)
    ∧ has_quorum_device exLmsDevice = true
    ∧ currentModel exLmsDevice = some "net"
    ∧ (∃ items, update_quorum_device exLmsDevice [("host", "")] [] true
          = .error (.reports items)
        ∧ requiredOptionIsMissingRpt "host" ∈ items) :=
  ⟨rfl,
   c4_required_host.1 exTwoNodes [] [] false true rfl (by decide),
   rfl, rfl,
   c4_required_host.2.2.2.1 exLmsDevice [("host", "")] [] true rfl rfl
     (by decide)⟩

/-! ## Claim C2 -/

/-- C2 (falsifying evaluation): on a tree whose quorum device carries model
`bogus` but has no nested `bogus` section, `update_quorum_device` with a
nonempty model-option dict passes validation with an empty finding list
(model is not `net`, `timeout = "5"` is valid), applies the generic options
to the device section, and then hits Python's `section_list[-1]` on the
empty model-section list — an unhandled `IndexError` escapes mid-mutation
with the tree already partially mutated, although not a single
error-severity finding exists. -/
theorem c2_update_crashes_mid_mutation :
    validate_quorum_device_model_options exBogusDevice
        ((currentModel exBogusDevice).getD "") [("x", "y")] false false
      ++ validate_quorum_device_generic_options [("timeout", "5")] false = []
    ∧ update_quorum_device exBogusDevice [("x", "y")] [("timeout", "5")] false
        = .error (.crash (.mk "" []
            [.mk "quorum" []
              [.mk "device" [("model", "bogus"), ("timeout", "5")] []]]))
    ∧ (Section.mk "" []
        [.mk "quorum" []
          [.mk "device" [("model", "bogus"), ("timeout", "5")] []]])
        ≠ exBogusDevice := by
  refine ⟨rfl, rfl, ?_⟩
  intro h
  simp only [exBogusDevice, Section.mk.injEq] at h
  simp at h

/-! ## Lemmas: the algorithm pass (phase2) -/

theorem name_updateNetSection (t : Bool) (net : Section) :
    (updateNetSection t net).name = net.name := by
  unfold updateNetSection
  split
  · rfl
  · split <;> rfl

theorem children_updateNetSection (t : Bool) (net : Section) :
    (updateNetSection t net).children = net.children := by
  unfold updateNetSection
  split
  · rfl
  · split <;> rfl

theorem quorums_phase2 (t : Bool) (r : Section) :
    (phase2 t r).get_sections "quorum"
      = (r.get_sections "quorum").map (fun q =>
          mapNamedChildren q "device" (fun d =>
            mapNamedChildren d "net" (updateNetSection t))) :=
  get_sections_mapNamedChildren_eq r "quorum" _ (fun _ => rfl)

theorem get_sections_phase2_ne (t : Bool) (r : Section) (n' : String)
    (h : n' ≠ "quorum") :
    (phase2 t r).get_sections n' = r.get_sections n' :=
  get_sections_mapNamedChildren_ne r "quorum" n' h _ (fun _ => rfl)

theorem attributes_phase2 (t : Bool) (r : Section) :
    (phase2 t r).attributes = r.attributes := rfl

theorem netSections_phase2 (t : Bool) (r : Section) :
    netSections (phase2 t r) = (netSections r).map (updateNetSection t) := by
  unfold netSections
  rw [quorums_phase2, List.flatMap_map, List.map_flatMap]
  congr 1
  funext q
  rw [get_sections_mapNamedChildren_eq q "device"
      (fun d => mapNamedChildren d "net" (updateNetSection t)) (fun _ => rfl),
    List.flatMap_map, List.map_flatMap]
  congr 1
  funext d
  rw [get_sections_mapNamedChildren_eq d "net" (updateNetSection t)
      (name_updateNetSection t)]

theorem hasDev_phase2 (t : Bool) (r : Section) :
    has_quorum_device (phase2 t r) = has_quorum_device r := by
  unfold has_quorum_device
  rw [quorums_phase2, List.any_map]
  congr 1
  funext q
  show ((mapNamedChildren q "device"
      (fun d => mapNamedChildren d "net" (updateNetSection t))).get_sections
        "device").any _ = _
  rw [get_sections_mapNamedChildren_eq q "device"
      (fun d => mapNamedChildren d "net" (updateNetSection t)) (fun _ => rfl),
    List.any_map]
  rfl

theorem nodeCount_phase2 (t : Bool) (r : Section) :
    nodeCount (phase2 t r) = nodeCount r := by
  unfold nodeCount get_nodes
  rw [get_sections_phase2_ne t r "nodelist" (by decide)]

theorem autoTieBreaker_eq_atbStream (r : Section) :
    autoTieBreaker r = (atbStream r).foldl (fun _ a => a.2 != "0") false := rfl

theorem atbStream_phase2 (t : Bool) (r : Section) :
    atbStream (phase2 t r) = atbStream r := by
  unfold atbStream
  rw [quorums_phase2, List.flatMap_map]
  rfl

/-! ## Lemmas: the two_node phase -/

theorem name_of_mem_get_sections {s : Section} {n : String} {c : Section}
    (h : c ∈ s.get_sections n) : c.name = n := by
  have := List.mem_filter.mp h
  simpa using this.2

theorem quorums_twoNodePhase_true {r : Section} (h : twoNodeCond r = true) :
    (twoNodePhase r).get_sections "quorum"
      = setSectionOptionsTotal
          ((ensure_section r "quorum").get_sections "quorum")
          [("two_node", "1")] := by
  unfold twoNodePhase
  rw [if_pos h]
  unfold setOptionsOnNamed
  exact get_sections_replaceNamedChildren_eq _ _ _
    (setSectionOptionsTotal_names _ _ _ (fun y hy => name_of_mem_get_sections hy))
    (setSectionOptionsTotal_length _ _)

theorem quorums_twoNodePhase_false {r : Section} (h : twoNodeCond r = false) :
    (twoNodePhase r).get_sections "quorum"
      = (r.get_sections "quorum").map
          (fun q => q.del_attributes_by_name "two_node") := by
  unfold twoNodePhase
  rw [h]
  simp only [Bool.false_eq_true, if_false]
  exact get_sections_mapNamedChildren_eq r "quorum" _ (fun _ => rfl)

theorem get_sections_twoNodePhase_ne (r : Section) (n' : String)
    (h : n' ≠ "quorum") :
    (twoNodePhase r).get_sections n' = r.get_sections n' := by
  unfold twoNodePhase
  split
  · unfold setOptionsOnNamed
    rw [get_sections_replaceNamedChildren_ne _ _ _ h _
        (setSectionOptionsTotal_names _ _ _
          (fun y hy => name_of_mem_get_sections hy))]
    exact get_sections_ensure_section_ne r "quorum" n' h
  · exact get_sections_mapNamedChildren_ne r "quorum" n' h _ (fun _ => rfl)

theorem nodeCount_twoNodePhase (r : Section) :
    nodeCount (twoNodePhase r) = nodeCount r := by
  unfold nodeCount get_nodes
  rw [get_sections_twoNodePhase_ne r "nodelist" (by decide)]

/-! ## Lemmas: update_two_node and the two_node invariant -/

theorem nodeCount_update_two_node (m : Section) :
    nodeCount (update_two_node m) = nodeCount m := by
  unfold update_two_node
  rw [nodeCount_phase2, nodeCount_twoNodePhase]

theorem get_sections_of_children_eq {s s' : Section}
    (h : s'.children = s.children) (n : String) :
    s'.get_sections n = s.get_sections n := by
  unfold Section.get_sections
  rw [h]

theorem get_attributes_of_attributes_eq {s s' : Section}
    (h : s'.attributes = s.attributes) (k : String) :
    s'.get_attributes k = s.get_attributes k := by
  unfold Section.get_attributes
  rw [h]

theorem flatMap_setSectionOptionsTotal {γ : Type} (H : Section → List γ)
    (o : List Attr) (hH1 : ∀ s, H (stripKeys s o) = H s)
    (hH2 : ∀ s, H (applyOptionsToLast s o) = H s) (l : List Section) :
    (setSectionOptionsTotal l o).flatMap H = l.flatMap H := by
  rcases List.eq_nil_or_concat' l with rfl | ⟨A, b, rfl⟩
  · rfl
  · rw [setSectionOptionsTotal_concat, List.flatMap_append,
      List.flatMap_append, List.flatMap_map]
    simp only [hH1, hH2, List.flatMap_cons, List.flatMap_nil]

theorem any_setSectionOptionsTotal (P : Section → Bool) (o : List Attr)
    (hP1 : ∀ s, P (stripKeys s o) = P s)
    (hP2 : ∀ s, P (applyOptionsToLast s o) = P s) (l : List Section) :
    (setSectionOptionsTotal l o).any P = l.any P := by
  rcases List.eq_nil_or_concat' l with rfl | ⟨A, b, rfl⟩
  · rfl
  · rw [setSectionOptionsTotal_concat, List.any_append, List.any_append,
      List.any_map]
    have hc : (P ∘ fun s => stripKeys s o) = P := funext (fun s => hP1 s)
    rw [hc]
    simp only [hP2, List.any_cons, List.any_nil]

theorem flatMap_quorums_ensure {γ : Type} (H : Section → List γ)
    (m : Section) (hmk : H (.mk "quorum" [] []) = []) :
    ((ensure_section m "quorum").get_sections "quorum").flatMap H
      = (m.get_sections "quorum").flatMap H := by
  by_cases h : m.get_sections "quorum" = []
  · rw [get_sections_ensure_section_nil m "quorum" h, h]
    simp [hmk]
  · rw [ensure_section_of_nonempty m "quorum" h]

theorem any_quorums_ensure (P : Section → Bool) (m : Section)
    (hmk : P (.mk "quorum" [] []) = false) :
    ((ensure_section m "quorum").get_sections "quorum").any P
      = (m.get_sections "quorum").any P := by
  by_cases h : m.get_sections "quorum" = []
  · rw [get_sections_ensure_section_nil m "quorum" h, h]
    simp [hmk]
  · rw [ensure_section_of_nonempty m "quorum" h]

theorem netSections_twoNodePhase (m : Section) :
    netSections (twoNodePhase m) = netSections m := by
  unfold netSections
  by_cases h : twoNodeCond m = true
  · rw [quorums_twoNodePhase_true h]
    rw [flatMap_setSectionOptionsTotal
        (fun q => (q.get_sections "device").flatMap
          (fun d => d.get_sections "net"))
        [("two_node", "1")]
        (fun s => by
          dsimp only
          rw [get_sections_of_children_eq
            (children_stripKeys s [("two_node", "1")]) "device"])
        (fun s => by
          dsimp only
          rw [get_sections_of_children_eq
            (children_applyOptionsToLast s [("two_node", "1")]) "device"])]
    exact flatMap_quorums_ensure _ m rfl
  · rw [quorums_twoNodePhase_false
        (by revert h; cases twoNodeCond m <;> simp)]
    rw [List.flatMap_map]
    congr 1

theorem hasDev_twoNodePhase (m : Section) :
    has_quorum_device (twoNodePhase m) = has_quorum_device m := by
  unfold has_quorum_device
  by_cases h : twoNodeCond m = true
  · rw [quorums_twoNodePhase_true h]
    rw [any_setSectionOptionsTotal
        (fun q => (q.get_sections "device").any
          (fun d => !(d.get_attributes "model").isEmpty))
        [("two_node", "1")]
        (fun s => by
          dsimp only
          rw [get_sections_of_children_eq
            (children_stripKeys s [("two_node", "1")]) "device"])
        (fun s => by
          dsimp only
          rw [get_sections_of_children_eq
            (children_applyOptionsToLast s [("two_node", "1")]) "device"])]
    exact any_quorums_ensure _ m rfl
  · rw [quorums_twoNodePhase_false
        (by revert h; cases twoNodeCond m <;> simp)]
    rw [List.any_map]
    congr 1

theorem atbStream_twoNodePhase (m : Section) :
    atbStream (twoNodePhase m) = atbStream m := by
  unfold atbStream
  by_cases h : twoNodeCond m = true
  · rw [quorums_twoNodePhase_true h]
    rw [flatMap_setSectionOptionsTotal
        (fun q => q.get_attributes "auto_tie_breaker") [("two_node", "1")]
        (fun s => by
          show (stripKeys s [("two_node", "1")]).get_attributes
              "auto_tie_breaker" = _
          rw [get_attributes_stripKeys]
          simp)
        (fun s =>
          get_attributes_applyOptionsToLast_not_mem s [("two_node", "1")]
            "auto_tie_breaker" (by simp))]
    exact flatMap_quorums_ensure _ m rfl
  · rw [quorums_twoNodePhase_false
        (by revert h; cases twoNodeCond m <;> simp)]
    rw [List.flatMap_map]
    congr 1
    funext q
    exact get_attributes_del_ne q "two_node" "auto_tie_breaker" (by decide)

theorem netSections_update_two_node (m : Section) :
    netSections (update_two_node m)
      = (netSections m).map (updateNetSection (nodeCount m == 2)) := by
  unfold update_two_node
  rw [netSections_phase2, netSections_twoNodePhase]

theorem hasDev_update_two_node (m : Section) :
    has_quorum_device (update_two_node m) = has_quorum_device m := by
  unfold update_two_node
  rw [hasDev_phase2, hasDev_twoNodePhase]

theorem atbStream_update_two_node (m : Section) :
    atbStream (update_two_node m) = atbStream m := by
  unfold update_two_node
  rw [atbStream_phase2, atbStream_twoNodePhase]

theorem twoNodeCond_update_two_node (m : Section) :
    twoNodeCond (update_two_node m) = twoNodeCond m := by
  unfold twoNodeCond
  rw [nodeCount_update_two_node, hasDev_update_two_node,
    autoTieBreaker_eq_atbStream, autoTieBreaker_eq_atbStream,
    atbStream_update_two_node]

theorem get_attributes_mapNamedChildren (s : Section) (n : String)
    (f : Section → Section) (k : String) :
    (mapNamedChildren s n f).get_attributes k = s.get_attributes k := rfl

theorem section_empty_false_of_attrs {b : Section} (h : b.attributes ≠ []) :
    b.empty = false := by
  unfold Section.empty
  rcases hb : b.attributes with _ | ⟨x, xs⟩
  · exact absurd hb h
  · rfl

theorem quorums_update_two_node_true {m : Section}
    (h : twoNodeCond m = true) :
    ∃ X b, (update_two_node m).get_sections "quorum" = X ++ [b]
      ∧ b.get_attributes "two_node" = [("two_node", "1")] := by
  unfold update_two_node
  rw [quorums_phase2, quorums_twoNodePhase_true h]
  rcases List.eq_nil_or_concat'
      ((ensure_section m "quorum").get_sections "quorum") with hE | ⟨A, b0, hE⟩
  · exact absurd hE (get_sections_ensure_section_ne_nil m "quorum")
  · rw [hE, setSectionOptionsTotal_concat, List.map_append]
    refine ⟨_, _, rfl, ?_⟩
    dsimp only
    rw [get_attributes_mapNamedChildren]
    rw [get_attributes_applyOptionsToLast_mem _ _ "two_node" "1"
      (by decide) (by decide)]
    rfl

theorem quorums_update_two_node_false {m : Section}
    (h : twoNodeCond m = false) :
    ∀ q ∈ (update_two_node m).get_sections "quorum",
      q.get_attributes "two_node" = [] := by
  unfold update_two_node
  rw [quorums_phase2, quorums_twoNodePhase_false h]
  intro q hq
  rcases List.mem_map.mp hq with ⟨q1, hq1, rfl⟩
  rcases List.mem_map.mp hq1 with ⟨q0, hq0, rfl⟩
  rw [get_attributes_mapNamedChildren]
  exact get_attributes_del_self q0 "two_node"

/-- The two_node invariant, stated against the tree as it stands when
invariant maintenance runs (the mid-state `m`); the conclusion is read off
the final tree (after hygiene). -/
theorem twoNodeInv_true (m : Section) (h : twoNodeCond m = true) :
    lastQuorumTwoNode (finishMutation m) = some [("two_node", "1")] := by
  rcases quorums_update_two_node_true h with ⟨X, b, hq, hb⟩
  unfold finishMutation lastQuorumTwoNode
  rw [get_sections_removeEmptySections, hq, List.map_append,
    List.filter_append, List.map_singleton]
  have hbne : b.attributes ≠ [] := by
    intro he
    rw [show b.get_attributes "two_node" = [] from by
      unfold Section.get_attributes; rw [he]; rfl] at hb
    cases hb
  have hempty : (removeEmptySections b).empty = false := by
    apply section_empty_false_of_attrs
    rw [attributes_removeEmptySections]
    exact hbne
  have hkeep : List.filter (fun c => !c.empty) [removeEmptySections b]
      = [removeEmptySections b] := by simp [hempty]
  rw [hkeep, List.getLast?_concat]
  show some ((removeEmptySections b).get_attributes "two_node") = _
  rw [get_attributes_removeEmptySections, hb]

theorem twoNodeInv_false (m : Section) (h : twoNodeCond m = false) :
    ∀ q ∈ (finishMutation m).get_sections "quorum",
      q.get_attributes "two_node" = [] := by
  intro q hq
  unfold finishMutation at hq
  rw [get_sections_removeEmptySections] at hq
  rcases List.mem_filter.mp hq with ⟨hq1, _⟩
  rcases List.mem_map.mp hq1 with ⟨q0, hq0, rfl⟩
  rw [get_attributes_removeEmptySections]
  exact quorums_update_two_node_false h q0 hq0

/-! ## Claim C1 -/

/-- C1 (amended): every mutation that completes without raising returns
`finishMutation m` for its mid-state tree `m` (the tree after the mutation
proper, on which invariant maintenance runs); and for every such mid-state,
if the two_node condition (exactly 2 nodes, auto_tie_breaker last value
`"0"` or absent, no quorum device) holds **of the mid-state**, the final
tree's last quorum section carries exactly `two_node = "1"` (a quorum
section being created if none exists), else `two_node` is absent from every
quorum section of the final tree.  (The original claim read the condition
off the final tree; hygiene pruning of empty `node` sections can change the
node count between the two, see the counterexample.) -/
theorem c1_two_node_invariant :
    (∀ (root : Section) (opts : List Attr) (m : Section),
        set_quorum_options_core root opts = .ok m →
        set_quorum_options root opts = .ok (finishMutation m))
    ∧ (∀ (root : Section) (model : String) (mo go : List Attr)
        (fm fo : Bool) (m : Section),
        add_quorum_device_core root model mo go fm fo = .ok m →
        add_quorum_device root model mo go fm fo = .ok (finishMutation m))
    ∧ (∀ (root : Section) (mo go : List Attr) (fo : Bool) (m : Section),
        update_quorum_device_core root mo go fo = .ok m →
        update_quorum_device root mo go fo = .ok (finishMutation m))
    ∧ (∀ (root m : Section),
        remove_quorum_device_core root = .ok m →
        remove_quorum_device root = .ok (finishMutation m))
    ∧ (∀ m : Section, twoNodeCond m = true →
        lastQuorumTwoNode (finishMutation m) = some [("two_node", "1")])
    ∧ (∀ m : Section, twoNodeCond m = false →
        ∀ q ∈ (finishMutation m).get_sections "quorum",
          q.get_attributes "two_node" = []) := by
  refine ⟨?_, ?_, ?_, ?_, twoNodeInv_true, twoNodeInv_false⟩
  · intro root opts m h
    unfold set_quorum_options
    rw [h]
    rfl
  · intro root model mo go fm fo m h
    unfold add_quorum_device
    rw [h]
    rfl
  · intro root mo go fo m h
    unfold update_quorum_device
    rw [h]
    rfl
  · intro root m h
    unfold remove_quorum_device
    rw [h]
    rfl

/-- Witness for C1: a two-node cluster with no device gets
`two_node = "1"` on its (created) quorum section. -/
theorem c1_two_node_invariant_witness :
    set_quorum_options_core exTwoNodes [] = .ok (setQuorumMutation exTwoNodes [])
    ∧ set_quorum_options exTwoNodes []
        = .ok (finishMutation (setQuorumMutation exTwoNodes []))
    ∧ twoNodeCond (setQuorumMutation exTwoNodes []) = true
    ∧ lastQuorumTwoNode (finishMutation (setQuorumMutation exTwoNodes []))
        = some [("two_node", "1")] :=
  ⟨rfl,
   c1_two_node_invariant.1 exTwoNodes [] (setQuorumMutation exTwoNodes []) rfl,
   rfl,
   c1_two_node_invariant.2.2.2.2.1 (setQuorumMutation exTwoNodes []) rfl⟩

/-- Counterexample to C1 as stated: on a tree with two empty `node`
sections, `set_quorum_options` succeeds, hygiene then prunes the empty
node sections, and the final tree has 0 nodes yet carries
`two_node = "1"` — violating the claim's "otherwise two_node is absent
from every quorum section" when the condition is read off the final
tree. -/
theorem c1_two_node_counterexample :
    set_quorum_options exEmptyNodes []
      = .ok (.mk "" [] [.mk "quorum" [("two_node", "1")] []])
    ∧ twoNodeCond (.mk "" [] [.mk "quorum" [("two_node", "1")] []]) = false
    ∧ lastQuorumTwoNode (.mk "" [] [.mk "quorum" [("two_node", "1")] []])
        = some [("two_node", "1")] :=
  ⟨rfl, rfl, rfl⟩

/-! ## Claim C7 -/

theorem updateNetSection_lms {t : Bool} {net : Section}
    (h1 : lastAlgorithm net = some "lms") (h2 : t = true) :
    updateNetSection t net = net.set_attribute "algorithm" "2nodelms" := by
  unfold updateNetSection
  rw [h1, h2]
  rfl

theorem updateNetSection_2nodelms {t : Bool} {net : Section}
    (h1 : lastAlgorithm net = some "2nodelms") (h2 : t = false) :
    updateNetSection t net = net.set_attribute "algorithm" "lms" := by
  unfold updateNetSection
  rw [h1, h2]
  rfl

theorem updateNetSection_other {t : Bool} {net : Section}
    (hn1 : ¬ (lastAlgorithm net = some "lms" ∧ t = true))
    (hn2 : ¬ (lastAlgorithm net = some "2nodelms" ∧ t = false)) :
    updateNetSection t net = net := by
  unfold updateNetSection
  cases t with
  | true =>
    have h1 : (lastAlgorithm net == some "lms") = false := by
      rw [beq_eq_false_iff_ne]
      intro he
      exact hn1 ⟨he, rfl⟩
    simp [h1]
  | false =>
    have h2 : (lastAlgorithm net == some "2nodelms") = false := by
      rw [beq_eq_false_iff_ne]
      intro he
      exact hn2 ⟨he, rfl⟩
    simp [h2]

/-- C7: the invariant-maintenance pass visits every `quorum/device/net`
section; one whose last `algorithm` value is `"lms"` with exactly 2 nodes
is rewritten to `"2nodelms"`, one whose value is `"2nodelms"` with a node
count other than 2 is rewritten to `"lms"`, and any other value (or an
absent attribute) is left untouched. -/
theorem c7_net_algorithm_rewrite :
    (∀ m : Section,
        netSections (update_two_node m)
          = (netSections m).map (updateNetSection (nodeCount m == 2)))
    ∧ (∀ (t : Bool) (net : Section),
        (lastAlgorithm net = some "lms" → t = true →
          updateNetSection t net = net.set_attribute "algorithm" "2nodelms")
        ∧ (lastAlgorithm net = some "2nodelms" → t = false →
          updateNetSection t net = net.set_attribute "algorithm" "lms")
        ∧ (¬ (lastAlgorithm net = some "lms" ∧ t = true) →
          ¬ (lastAlgorithm net = some "2nodelms" ∧ t = false) →
          updateNetSection t net = net)) :=
  ⟨netSections_update_two_node,
   fun t net =>
    ⟨fun h1 h2 => updateNetSection_lms h1 h2,
     fun h1 h2 => updateNetSection_2nodelms h1 h2,
     fun hn1 hn2 => updateNetSection_other hn1 hn2⟩⟩

/-- Witness for C7 at concrete net sections. -/
theorem c7_net_algorithm_rewrite_witness :
    lastAlgorithm (.mk "net" [("algorithm", "lms")] []) = some "lms"
    ∧ updateNetSection true (.mk "net" [("algorithm", "lms")] [])
        = (Section.mk "net" [("algorithm", "lms")] []).set_attribute
            "algorithm" "2nodelms"
    ∧ lastAlgorithm (.mk "net" [("algorithm", "2nodelms")] []) = some "2nodelms"
    ∧ updateNetSection false (.mk "net" [("algorithm", "2nodelms")] [])
        = (Section.mk "net" [("algorithm", "2nodelms")] []).set_attribute
            "algorithm" "lms"
    ∧ updateNetSection true (.mk "net" [("algorithm", "ffsplit")] [])
        = .mk "net" [("algorithm", "ffsplit")] [] :=
  ⟨rfl,
   (c7_net_algorithm_rewrite.2 true _).1 rfl rfl,
   rfl,
   (c7_net_algorithm_rewrite.2 false _).2.1 rfl rfl,
   (c7_net_algorithm_rewrite.2 true _).2.2 (by decide) (by decide)⟩

/-! ## Claim C8 -/

/-- C8 (amended): a `net` device section whose last `algorithm` value is
`"lms"` on a 2-node cluster is rewritten to `"2nodelms"` by the
invariant-maintenance pass of any quorum-affecting mutation; with a node
count other than 2, a `"2nodelms"` value is rewritten back to `"lms"`
(the original claim stated the two directions the other way round). -/
theorem c8_algorithm_flip (m : Section) (i : Nat) (net : Section)
    (hnet : (netSections m).get? i = some net) :
    (nodeCount m = 2 → lastAlgorithm net = some "lms" →
      (netSections (update_two_node m)).get? i
        = some (net.set_attribute "algorithm" "2nodelms"))
    ∧ (nodeCount m ≠ 2 → lastAlgorithm net = some "2nodelms" →
      (netSections (update_two_node m)).get? i
        = some (net.set_attribute "algorithm" "lms")) := by
  constructor
  · intro h2 halg
    rw [netSections_update_two_node, List.get?_map, hnet]
    have ht : (nodeCount m == 2) = true := by simp [h2]
    rw [Option.map_some']
    rw [updateNetSection_lms halg ht]
  · intro h2 halg
    rw [netSections_update_two_node, List.get?_map, hnet]
    have ht : (nodeCount m == 2) = false := by simp [h2]
    rw [Option.map_some']
    rw [updateNetSection_2nodelms halg ht]

/-- Witness for C8 (amended) on a concrete 2-node cluster. -/
theorem c8_algorithm_flip_witness :
    (netSections exLmsDevice).get? 0
      = some (.mk "net" [("host", "h"), ("algorithm", "lms")] [])
    ∧ nodeCount exLmsDevice = 2
    ∧ lastAlgorithm (.mk "net" [("host", "h"), ("algorithm", "lms")] [])
        = some "lms"
    ∧ (netSections (update_two_node exLmsDevice)).get? 0
        = some ((Section.mk "net" [("host", "h"), ("algorithm", "lms")]
            []).set_attribute "algorithm" "2nodelms") :=
  ⟨rfl, rfl, rfl,
   (c8_algorithm_flip exLmsDevice 0 _ rfl).1 rfl rfl⟩

/-- Counterexample to C8 as stated: on the 2-node cluster `exLmsDevice`
the `net` section's `algorithm` is `"lms"`; after a quorum-affecting
mutation (`set_quorum_options` with an empty dict) the algorithm has been
rewritten to `"2nodelms"` — it does not stay `"lms"`. -/
theorem c8_algorithm_flip_counterexample :
    nodeCount exLmsDevice = 2
    ∧ netSections exLmsDevice
        = [.mk "net" [("host", "h"), ("algorithm", "lms")] []]
    ∧ set_quorum_options exLmsDevice []
        = .ok (.mk "" []
            [.mk "nodelist" []
              [.mk "node" [("ring0_addr", "a")] [],
               .mk "node" [("ring0_addr", "b")] []],
             .mk "quorum" []
              [.mk "device" [("model", "net")]
                [.mk "net" [("host", "h"), ("algorithm", "2nodelms")] []]]])
    ∧ netSections (.mk "" []
        [.mk "nodelist" []
          [.mk "node" [("ring0_addr", "a")] [],
           .mk "node" [("ring0_addr", "b")] []],
         .mk "quorum" []
          [.mk "device" [("model", "net")]
            [.mk "net" [("host", "h"), ("algorithm", "2nodelms")] []]]])
        = [.mk "net" [("host", "h"), ("algorithm", "2nodelms")] []] :=
  ⟨rfl, rfl, rfl, rfl⟩

/-! ## Lemmas toward claim C3 -/

theorem valid_opts_keys {opts : List Attr}
    (hval : hasError (validate_quorum_options opts) = false) :
    ∀ p ∈ opts, p.1 ∈ QUORUM_OPTIONS := by
  intro p hp
  by_contra hkey
  have hc : QUORUM_OPTIONS.contains p.1 = false := by simpa using hkey
  have hmem : invalidOptionRpt p.1 "quorum" ∈ validate_quorum_options opts := by
    unfold validate_quorum_options
    apply List.mem_flatMap.mpr
    refine ⟨p, mem_sortPairs hp, ?_⟩
    dsimp only
    rw [if_pos (by rw [hc]; rfl)]
    exact List.mem_singleton.mpr rfl
  rw [hasError_of_mem hmem rfl] at hval
  cases hval

theorem quorum_option_ne_two_node {k : String} (h : k ∈ QUORUM_OPTIONS) :
    k ≠ "two_node" := by
  intro he
  subst he
  revert h
  decide

theorem quorums_setQuorumMutation (root : Section) (opts : List Attr) :
    (setQuorumMutation root opts).get_sections "quorum"
      = setSectionOptionsTotal
          ((ensure_section root "quorum").get_sections "quorum") opts := by
  unfold setQuorumMutation setOptionsOnNamed
  exact get_sections_replaceNamedChildren_eq _ _ _
    (setSectionOptionsTotal_names _ _ _ (fun y hy => name_of_mem_get_sections hy))
    (setSectionOptionsTotal_length _ _)

theorem quorums_update_two_node_attrs (S : Section) (ks : List String)
    (hk : ∀ k ∈ ks, k ≠ "two_node") {Y0 : List Section} {z0 : Section}
    (hS : S.get_sections "quorum" = Y0 ++ [z0]) :
    ∃ Y z, (update_two_node S).get_sections "quorum" = Y ++ [z]
      ∧ (∀ k ∈ ks, z.get_attributes k = z0.get_attributes k)
      ∧ (∀ y ∈ Y, ∃ y0 ∈ Y0,
          ∀ k ∈ ks, y.get_attributes k = y0.get_attributes k) := by
  have hstrip : ∀ (s : Section) (k : String), k ≠ "two_node" →
      (stripKeys s [("two_node", "1")]).get_attributes k
        = s.get_attributes k := by
    intro s k hkk
    rw [get_attributes_stripKeys]
    simp [hkk]
  have happly : ∀ (s : Section) (k : String), k ≠ "two_node" →
      (applyOptionsToLast s [("two_node", "1")]).get_attributes k
        = s.get_attributes k := by
    intro s k hkk
    exact get_attributes_applyOptionsToLast_not_mem s _ _ (by simpa using hkk)
  unfold update_two_node
  by_cases h : twoNodeCond S = true
  · rw [quorums_phase2, quorums_twoNodePhase_true h]
    rw [ensure_section_of_nonempty S "quorum" (by rw [hS]; simp), hS,
      setSectionOptionsTotal_concat, List.map_append, List.map_singleton,
      List.map_map]
    refine ⟨_, _, rfl, ?_, ?_⟩
    · intro k hkk
      rw [get_attributes_mapNamedChildren]
      exact happly z0 k (hk k hkk)
    · intro y hy
      rcases List.mem_map.mp hy with ⟨y0, hy0, rfl⟩
      refine ⟨y0, hy0, ?_⟩
      intro k hkk
      show ((mapNamedChildren (stripKeys y0 [("two_node", "1")]) "device"
          _)).get_attributes k = _
      rw [get_attributes_mapNamedChildren]
      exact hstrip y0 k (hk k hkk)
  · rw [quorums_phase2,
      quorums_twoNodePhase_false (by revert h; cases twoNodeCond S <;> simp),
      hS, List.map_append, List.map_append, List.map_singleton,
      List.map_singleton, List.map_map]
    refine ⟨_, _, rfl, ?_, ?_⟩
    · intro k hkk
      rw [get_attributes_mapNamedChildren]
      exact get_attributes_del_ne z0 "two_node" k (hk k hkk)
    · intro y hy
      rcases List.mem_map.mp hy with ⟨y0, hy0, rfl⟩
      refine ⟨y0, hy0, ?_⟩
      intro k hkk
      show ((mapNamedChildren (y0.del_attributes_by_name "two_node") "device"
          _)).get_attributes k = _
      rw [get_attributes_mapNamedChildren]
      exact get_attributes_del_ne y0 "two_node" k (hk k hkk)

theorem filter_map_prune_concat (Y : List Section) (z : Section) :
    ((Y ++ [z]).map removeEmptySections).filter (fun c => !c.empty)
      = (Y.map removeEmptySections).filter (fun c => !c.empty)
        ++ (if (removeEmptySections z).empty then []
            else [removeEmptySections z]) := by
  rw [List.map_append, List.filter_append, List.map_singleton]
  congr 1
  by_cases h : (removeEmptySections z).empty
  · simp [h]
  · simp [h]

/-! ## Claim C3 -/

/-- C3: on a tree with two or more `quorum` sections and a valid options
dict, `set_quorum_options` strips each submitted key from every quorum
section except the last, and in the last section each submitted key ends up
with exactly its submitted value — except that keys submitted with an empty
value are absent from every quorum section of the result. -/
theorem c3_merge_rule (root : Section) (opts : List Attr)
    (h2 : 2 ≤ (root.get_sections "quorum").length)
    (hnd : (opts.map Prod.fst).Nodup)
    (hval : hasError (validate_quorum_options opts) = false) :
    ∃ t, set_quorum_options root opts = .ok t
      ∧ (∀ q ∈ (t.get_sections "quorum").dropLast,
          ∀ p ∈ opts, q.get_attributes p.1 = [])
      ∧ (∀ p ∈ opts, p.2 = "" →
          ∀ q ∈ t.get_sections "quorum", q.get_attributes p.1 = [])
      ∧ (∀ p ∈ opts, p.2 ≠ "" →
          ∃ q, (t.get_sections "quorum").getLast? = some q
            ∧ q.get_attributes p.1 = [(p.1, p.2)]) := by
  have hkeys := valid_opts_keys hval
  have hkeys' : ∀ p ∈ opts, p.1 ≠ "two_node" :=
    fun p hp => quorum_option_ne_two_node (hkeys p hp)
  have hqne : root.get_sections "quorum" ≠ [] := by
    intro h
    rw [h] at h2
    simp at h2
  rcases List.eq_nil_or_concat' (root.get_sections "quorum")
    with hnil | ⟨A, b0, hAb⟩
  · exact absurd hnil hqne
  -- structure of the quorum sections after the merge rule
  have hS : (setQuorumMutation root opts).get_sections "quorum"
      = (A.map (fun s => stripKeys s opts)) ++ [applyOptionsToLast b0 opts] := by
    rw [quorums_setQuorumMutation, ensure_section_of_nonempty root "quorum" hqne,
      hAb, setSectionOptionsTotal_concat]
  -- structure after invariant maintenance
  rcases quorums_update_two_node_attrs (setQuorumMutation root opts)
      (opts.map Prod.fst) (fun k hk => by
        rcases List.mem_map.mp hk with ⟨p, hp, rfl⟩
        exact hkeys' p hp) hS with ⟨Y, z, hU, hz, hY⟩
  have hzattr : ∀ p ∈ opts, z.get_attributes p.1
      = if p.2 = "" then [] else [(p.1, p.2)] := by
    intro p hp
    rw [hz p.1 (List.mem_map.mpr ⟨p, hp, rfl⟩)]
    exact get_attributes_applyOptionsToLast_mem b0 opts p.1 p.2 hnd hp
  have hYattr : ∀ y ∈ Y, ∀ p ∈ opts, y.get_attributes p.1 = [] := by
    intro y hy p hp
    rcases hY y hy with ⟨y0, hy0, he⟩
    rw [he p.1 (List.mem_map.mpr ⟨p, hp, rfl⟩)]
    rcases List.mem_map.mp hy0 with ⟨a, _, rfl⟩
    rw [get_attributes_stripKeys]
    simp [List.mem_map.mpr ⟨p, hp, rfl⟩]
  -- the final tree
  refine ⟨_, set_quorum_options_ok hval, ?_, ?_, ?_⟩
  · -- stripped keys in all but the last section
    intro q hq p hp
    rw [show finishMutation (setQuorumMutation root opts)
        = removeEmptySections (update_two_node (setQuorumMutation root opts))
        from rfl, get_sections_removeEmptySections, hU,
      filter_map_prune_concat] at hq
    have hq' : q ∈ (Y.map removeEmptySections).filter (fun c => !c.empty) := by
      by_cases hze : (removeEmptySections z).empty = true
      · rw [hze] at hq
        simp only [if_pos] at hq
        rw [List.append_nil] at hq
        exact (List.dropLast_sublist _).subset hq
      · rw [show (removeEmptySections z).empty = false from by
            revert hze; cases (removeEmptySections z).empty <;> simp] at hq
        simp only [Bool.false_eq_true, if_false] at hq
        rw [List.dropLast_concat] at hq
        exact hq
    rcases List.mem_filter.mp hq' with ⟨hq1, _⟩
    rcases List.mem_map.mp hq1 with ⟨y, hy, rfl⟩
    rw [get_attributes_removeEmptySections]
    exact hYattr y hy p hp
  · -- empty-valued keys absent everywhere
    intro p hp hpe q hq
    rw [show finishMutation (setQuorumMutation root opts)
        = removeEmptySections (update_two_node (setQuorumMutation root opts))
        from rfl, get_sections_removeEmptySections] at hq
    rcases List.mem_filter.mp hq with ⟨hq1, _⟩
    rcases List.mem_map.mp hq1 with ⟨q0, hq0, rfl⟩
    rw [get_attributes_removeEmptySections]
    rw [hU] at hq0
    rcases List.mem_append.mp hq0 with hq0 | hq0
    · exact hYattr q0 hq0 p hp
    · rcases List.mem_singleton.mp hq0 with rfl
      rw [hzattr p hp, if_pos hpe]
  · -- nonempty-valued keys present exactly once in the last section
    intro p hp hpe
    have hzp : z.get_attributes p.1 = [(p.1, p.2)] := by
      rw [hzattr p hp, if_neg hpe]
    have hzne : z.attributes ≠ [] := by
      intro he
      rw [show z.get_attributes p.1 = [] from by
        unfold Section.get_attributes; rw [he]; rfl] at hzp
      cases hzp
    have hempty : (removeEmptySections z).empty = false := by
      apply section_empty_false_of_attrs
      rw [attributes_removeEmptySections]
      exact hzne
    rw [show finishMutation (setQuorumMutation root opts)
        = removeEmptySections (update_two_node (setQuorumMutation root opts))
        from rfl, get_sections_removeEmptySections, hU,
      filter_map_prune_concat, hempty]
    simp only [Bool.false_eq_true, if_false]
    refine ⟨removeEmptySections z, List.getLast?_concat _, ?_⟩
    rw [get_attributes_removeEmptySections]
    exact hzp

/-- Witness for C3: on two quorum sections each defining `wait_for_all`,
after `set_quorum_options {wait_for_all: "1"}` only the last section
carries the key. -/
theorem c3_merge_rule_witness :
    2 ≤ (exTwoQuorums.get_sections "quorum").length
    ∧ (([("wait_for_all", "1")] : List Attr).map Prod.fst).Nodup
    ∧ hasError (validate_quorum_options [("wait_for_all", "1")]) = false
    ∧ (∃ t, set_quorum_options exTwoQuorums [("wait_for_all", "1")] = .ok t
      ∧ (∀ q ∈ (t.get_sections "quorum").dropLast,
          ∀ p ∈ [(("wait_for_all" : String), ("1" : String))],
            q.get_attributes p.1 = [])
      ∧ (∀ p ∈ [(("wait_for_all" : String), ("1" : String))], p.2 = "" →
          ∀ q ∈ t.get_sections "quorum", q.get_attributes p.1 = [])
      ∧ (∀ p ∈ [(("wait_for_all" : String), ("1" : String))], p.2 ≠ "" →
          ∃ q, (t.get_sections "quorum").getLast? = some q
            ∧ q.get_attributes p.1 = [(p.1, p.2)])) :=
  ⟨by decide, by decide, by decide,
   c3_merge_rule exTwoQuorums [("wait_for_all", "1")] (by decide) (by decide)
     (by decide)⟩

/-! ## Lemmas toward claim C6: tracking the device sections -/

theorem get_sections_of_empty {s : Section} (h : s.empty = true)
    (n : String) : s.get_sections n = [] := by
  unfold Section.empty at h
  rcases Bool.and_eq_true_iff.mp h with ⟨_, hc⟩
  unfold Section.get_sections
  rw [List.isEmpty_iff.mp hc]
  rfl

theorem flatMap_filter_of_empty_nil {γ : Type} (L : List Section)
    (F : Section → List γ)
    (hF : ∀ s, s.empty = true → F s = []) :
    (L.filter (fun c => !c.empty)).flatMap F = L.flatMap F := by
  induction L with
  | nil => rfl
  | cons c cs ih =>
    rw [List.filter_cons, List.flatMap_cons]
    by_cases h : c.empty = true
    · rw [show (!c.empty) = false from by rw [h]; rfl]
      simp only [Bool.false_eq_true, if_false]
      rw [ih, hF c h, List.nil_append]
    · rw [show (!c.empty) = true from by
        revert h; cases c.empty <;> simp]
      simp only [if_true, List.flatMap_cons, ih]

theorem filter_flatMap (p : Section → Bool) (F : Section → List Section)
    (l : List Section) :
    (l.flatMap F).filter p = l.flatMap (fun x => (F x).filter p) := by
  induction l with
  | nil => rfl
  | cons c cs ih => rw [List.flatMap_cons, List.filter_append, ih]; rfl

theorem any_flatMap (P : Section → Bool) (F : Section → List Section)
    (l : List Section) :
    (l.flatMap F).any P = l.any (fun x => (F x).any P) := by
  induction l with
  | nil => rfl
  | cons c cs ih => rw [List.flatMap_cons, List.any_append, ih]; rfl

theorem hasDev_eq_deviceSections (S : Section) :
    has_quorum_device S
      = (deviceSections S).any
          (fun d => !(d.get_attributes "model").isEmpty) := by
  unfold has_quorum_device deviceSections
  rw [any_flatMap]

theorem deviceSections_twoNodePhase (m : Section) :
    deviceSections (twoNodePhase m) = deviceSections m := by
  unfold deviceSections
  by_cases h : twoNodeCond m = true
  · rw [quorums_twoNodePhase_true h]
    rw [flatMap_setSectionOptionsTotal
        (fun q => q.get_sections "device") [("two_node", "1")]
        (fun s => get_sections_of_children_eq
          (children_stripKeys s [("two_node", "1")]) "device")
        (fun s => get_sections_of_children_eq
          (children_applyOptionsToLast s [("two_node", "1")]) "device")]
    exact flatMap_quorums_ensure _ m rfl
  · rw [quorums_twoNodePhase_false
        (by revert h; cases twoNodeCond m <;> simp)]
    rw [List.flatMap_map]
    rfl

theorem deviceSections_update_two_node (S : Section) :
    deviceSections (update_two_node S)
      = (deviceSections S).map (fun d =>
          mapNamedChildren d "net" (updateNetSection (nodeCount S == 2))) := by
  unfold update_two_node
  rw [show deviceSections (phase2 (nodeCount S == 2) (twoNodePhase S))
      = (deviceSections (twoNodePhase S)).map (fun d =>
          mapNamedChildren d "net" (updateNetSection (nodeCount S == 2)))
    from ?_]
  · rw [deviceSections_twoNodePhase]
  · unfold deviceSections
    rw [quorums_phase2, List.flatMap_map, List.map_flatMap]
    congr 1
    funext q
    rw [get_sections_mapNamedChildren_eq q "device"
        (fun d => mapNamedChildren d "net"
          (updateNetSection (nodeCount S == 2))) (fun _ => rfl)]

theorem deviceSections_prune (t' : Section) :
    deviceSections (removeEmptySections t')
      = ((deviceSections t').map removeEmptySections).filter
          (fun d => !d.empty) := by
  unfold deviceSections
  rw [get_sections_removeEmptySections]
  rw [flatMap_filter_of_empty_nil _ _
    (fun s h => get_sections_of_empty h "device")]
  rw [List.flatMap_map]
  rw [show (fun q => (removeEmptySections q).get_sections "device")
      = (fun q => ((q.get_sections "device").map
          removeEmptySections).filter (fun c => !c.empty)) from
    funext (fun q => get_sections_removeEmptySections q "device")]
  rw [List.map_flatMap, filter_flatMap]

theorem get_sections_delSectionsNamed_self (s : Section) (n : String) :
    (delSectionsNamed s n).get_sections n = [] := by
  unfold delSectionsNamed Section.get_sections
  rw [Section.children_mk, List.filter_filter]
  have : ∀ c : Section, ((c.name == n) && (c.name != n)) = false := by
    intro c
    by_cases hc : c.name = n <;> simp [hc]
  rw [show (fun c : Section => (c.name == n) && (c.name != n))
        = (fun _ : Section => false) from funext this]
  simp

@[simp] theorem name_delSectionsNamed (s : Section) (n : String) :
    (delSectionsNamed s n).name = s.name := rfl

@[simp] theorem attributes_delSectionsNamed (s : Section) (n : String) :
    (delSectionsNamed s n).attributes = s.attributes := rfl

theorem name_newDeviceSection (model : String) (mo go : List Attr) :
    (newDeviceSection model mo go).name = "device" := by
  unfold newDeviceSection
  rw [name_add_section, name_set_attribute, name_applyOptionsToLast]
  rfl

theorem get_attributes_model_newDeviceSection (model : String)
    (mo go : List Attr) :
    (newDeviceSection model mo go).get_attributes "model"
      = [("model", model)] := by
  unfold newDeviceSection
  rw [show ∀ (a b : Section), (a.add_section b).get_attributes "model"
      = a.get_attributes "model" from fun a b => rfl]
  exact get_attributes_set_attribute_self _ "model" model

theorem flatMap_eq_nil_of_forall (l : List Section)
    (F : Section → List Section) (h : ∀ x ∈ l, F x = []) :
    l.flatMap F = [] := by
  induction l with
  | nil => rfl
  | cons c cs ih =>
    rw [List.flatMap_cons, h c (List.mem_cons_self c cs), List.nil_append]
    exact ih (fun x hx => h x (List.mem_cons_of_mem c hx))

theorem deviceSections_addDeviceMutation (root : Section) (model : String)
    (mo go : List Attr) :
    deviceSections (addDeviceMutation root model mo go)
      = [newDeviceSection model mo go] := by
  rcases List.eq_nil_or_concat'
      ((ensure_section root "quorum").get_sections "quorum")
    with hE | ⟨A, b0, hE⟩
  · exact absurd hE (get_sections_ensure_section_ne_nil root "quorum")
  · unfold addDeviceMutation deviceSections
    rw [get_sections_replaceNamedChildren_eq]
    · rw [hE, setSectionOptionsTotal_concat, List.map_append,
        List.map_singleton, mapLast_concat, List.flatMap_append,
        List.flatMap_cons]
      rw [flatMap_eq_nil_of_forall _ _ (fun x hx => by
        rcases List.mem_map.mp hx with ⟨y, hy, rfl⟩
        exact get_sections_delSectionsNamed_self y "device")]
      rw [get_sections_add_section, get_sections_delSectionsNamed_self]
      rw [show ((newDeviceSection model mo go).name == "device") = true from by
        rw [name_newDeviceSection]; rfl]
      rfl
    · intro x hx
      rw [hE, setSectionOptionsTotal_concat, List.map_append,
        List.map_singleton, mapLast_concat] at hx
      have hnames : ∀ y ∈ (A.map (fun s => stripKeys s clearedQuorumOptions)
            ++ [applyOptionsToLast b0 clearedQuorumOptions]),
          y.name = "quorum" := by
        rw [← setSectionOptionsTotal_concat, ← hE]
        exact setSectionOptionsTotal_names _ _ _
          (fun y hy => name_of_mem_get_sections hy)
      rcases List.mem_append.mp hx with hx | hx
      · rcases List.mem_map.mp hx with ⟨y, hy, rfl⟩
        rcases List.mem_map.mp hy with ⟨y0, hy0, rfl⟩
        rw [name_delSectionsNamed]
        exact hnames _ (List.mem_append.mpr (Or.inl
          (List.mem_map.mpr ⟨y0, hy0, rfl⟩)))
      · rcases List.mem_singleton.mp hx with rfl
        rw [name_add_section, name_delSectionsNamed]
        exact hnames _ (List.mem_append.mpr (Or.inr
          (List.mem_singleton.mpr rfl)))
    · rw [hE, setSectionOptionsTotal_concat, List.map_append,
        List.map_singleton, mapLast_concat]
      simp [List.length_append, List.length_map]

/-! ## Claim C6 -/

/-- C6: on any tree with no quorum device, adding a device with the
unknown model `bogus` fails with a blocking error-severity invalid-model
finding when `forceModel` is false (the tree is untouched, only the error
is returned), while the identical call with `forceModel = true` succeeds;
afterwards the single device section carries `model = "bogus"` and one
nested section named `bogus` holding `host = "h"`, as reported by
`get_quorum_device_settings`. -/
theorem c6_force_model_downgrade (root : Section)
    (hnd : has_quorum_device root = false) :
    add_quorum_device root "bogus" [("host", "h")] [] false false
        = .error (.reports
            [invalidOptionValueRptSev "model" "bogus" .error true])
    ∧ (invalidOptionValueRptSev "model" "bogus" .error true).severity = .error
    ∧ (invalidOptionValueRptSev "model" "bogus" .warning false).severity
        = .warning
    ∧ (∃ t, add_quorum_device root "bogus" [("host", "h")] [] true false
          = .ok t
        ∧ deviceSections t
            = [.mk "device" [("model", "bogus")]
                [.mk "bogus" [("host", "h")] []]]
        ∧ get_quorum_device_settings t
            = (some "bogus", [("host", "h")], [])) := by
  refine ⟨add_quorum_device_error hnd rfl, rfl, rfl, ?_⟩
  have hdevs : deviceSections
      (finishMutation (addDeviceMutation root "bogus" [("host", "h")] []))
      = [Section.mk "device" [("model", "bogus")]
          [.mk "bogus" [("host", "h")] []]] := by
    unfold finishMutation
    rw [deviceSections_prune, deviceSections_update_two_node,
      deviceSections_addDeviceMutation]
    rw [List.map_singleton]
    rw [show mapNamedChildren (newDeviceSection "bogus" [("host", "h")] [])
          "net"
          (updateNetSection
            (nodeCount (addDeviceMutation root "bogus" [("host", "h")] [])
              == 2))
        = newDeviceSection "bogus" [("host", "h")] [] from
      mapNamedChildren_id _ _ _ (fun c hc => absurd hc (List.not_mem_nil c))]
    rfl
  refine ⟨_, add_quorum_device_ok hnd rfl, hdevs, ?_⟩
  unfold get_quorum_device_settings
  rw [hdevs]
  rfl

/-- Witness for C6 on a concrete two-node tree. -/
theorem c6_force_model_downgrade_witness :
    has_quorum_device exTwoNodes = false
    ∧ add_quorum_device exTwoNodes "bogus" [("host", "h")] [] false false
        = .error (.reports
            [invalidOptionValueRptSev "model" "bogus" .error true])
    ∧ (∃ t, add_quorum_device exTwoNodes "bogus" [("host", "h")] [] true false
          = .ok t
        ∧ deviceSections t
            = [.mk "device" [("model", "bogus")]
                [.mk "bogus" [("host", "h")] []]]
        ∧ get_quorum_device_settings t
            = (some "bogus", [("host", "h")], [])) :=
  ⟨rfl, (c6_force_model_downgrade exTwoNodes rfl).1,
   (c6_force_model_downgrade exTwoNodes rfl).2.2.2⟩

/-! ## Lemmas toward claim C9: quantities across the hygiene pass -/

theorem get_attributes_of_empty {s : Section} (h : s.empty = true)
    (k : String) : s.get_attributes k = [] := by
  unfold Section.empty at h
  rcases Bool.and_eq_true_iff.mp h with ⟨ha, _⟩
  unfold Section.get_attributes
  rw [List.isEmpty_iff.mp ha]
  rfl

theorem get_sections_setQuorumMutation_ne (root : Section)
    (opts : List Attr) (n' : String) (h : n' ≠ "quorum") :
    (setQuorumMutation root opts).get_sections n' = root.get_sections n' := by
  unfold setQuorumMutation setOptionsOnNamed
  rw [get_sections_replaceNamedChildren_ne _ _ _ h _
      (setSectionOptionsTotal_names _ _ _
        (fun y hy => name_of_mem_get_sections hy))]
  exact get_sections_ensure_section_ne root "quorum" n' h

theorem nodeFromSection_prune (nd : Section) :
    nodeFromSection (removeEmptySections nd) = nodeFromSection nd := by
  unfold nodeFromSection
  rw [attributes_removeEmptySections]

theorem get_nodes_prune (x : Section)
    (hx : ∀ nl ∈ x.get_sections "nodelist", ∀ nd ∈ nl.get_sections "node",
      nd.attributes ≠ []) :
    get_nodes (removeEmptySections x) = get_nodes x := by
  unfold get_nodes
  rw [get_sections_removeEmptySections]
  rw [flatMap_filter_of_empty_nil _ _
    (fun s h => by rw [get_sections_of_empty h "node"]; rfl)]
  rw [List.flatMap_map]
  apply List.flatMap_congr
  intro nl hnl
  rw [get_sections_removeEmptySections nl "node"]
  have hall : ∀ c ∈ (nl.get_sections "node").map removeEmptySections,
      (!c.empty) = true := by
    intro c hc
    rcases List.mem_map.mp hc with ⟨nd, hnd, rfl⟩
    rw [section_empty_false_of_attrs (by
      rw [attributes_removeEmptySections]
      exact hx nl hnl nd hnd)]
    rfl
  rw [List.filter_eq_self.mpr hall, List.map_map]
  rw [show nodeFromSection ∘ removeEmptySections = nodeFromSection from
    funext nodeFromSection_prune]

theorem atbStream_prune (x : Section) :
    atbStream (removeEmptySections x) = atbStream x := by
  unfold atbStream
  rw [get_sections_removeEmptySections]
  rw [flatMap_filter_of_empty_nil _ _
    (fun s h => get_attributes_of_empty h "auto_tie_breaker")]
  rw [List.flatMap_map]
  apply List.flatMap_congr
  intro q _
  exact get_attributes_removeEmptySections q "auto_tie_breaker"

theorem any_filter_of_imp (l : List Section) (P pass : Section → Bool)
    (h : ∀ c ∈ l, P c = true → pass c = true) :
    (l.filter pass).any P = l.any P := by
  induction l with
  | nil => rfl
  | cons c cs ih =>
    rw [List.filter_cons, List.any_cons]
    by_cases hp : pass c = true
    · rw [if_pos hp, List.any_cons,
        ih (fun d hd => h d (List.mem_cons_of_mem c hd))]
    · rw [if_neg hp, ih (fun d hd => h d (List.mem_cons_of_mem c hd))]
      have hP : P c = false := by
        by_contra hPc
        exact hp (h c (List.mem_cons_self c cs)
          (by revert hPc; cases P c <;> simp))
      rw [hP]
      rfl

theorem hasDev_prune (x : Section) :
    has_quorum_device (removeEmptySections x) = has_quorum_device x := by
  rw [hasDev_eq_deviceSections, hasDev_eq_deviceSections, deviceSections_prune]
  rw [any_filter_of_imp _ _ _ (fun c _ hc => by
    rcases Bool.eq_false_or_eq_true c.empty with he | he
    · rw [get_attributes_of_empty he "model"] at hc
      simp at hc
    · rw [he]
      rfl)]
  rw [List.any_map]
  rw [show (fun d => !(d.get_attributes "model").isEmpty) ∘ removeEmptySections
      = (fun d : Section => !(d.get_attributes "model").isEmpty) from
    funext (fun d => by
      show (!((removeEmptySections d).get_attributes "model").isEmpty) = _
      rw [get_attributes_removeEmptySections])]

theorem nodeCount_prune (x : Section)
    (hx : ∀ nl ∈ x.get_sections "nodelist", ∀ nd ∈ nl.get_sections "node",
      nd.attributes ≠ []) :
    nodeCount (removeEmptySections x) = nodeCount x := by
  unfold nodeCount
  rw [get_nodes_prune x hx]

theorem netSections_prune (y : Section) :
    netSections (removeEmptySections y)
      = ((netSections y).map removeEmptySections).filter
          (fun c => !c.empty) := by
  unfold netSections
  rw [get_sections_removeEmptySections]
  rw [flatMap_filter_of_empty_nil _ _ (fun s h => by
    rw [get_sections_of_empty h "device"]
    rfl)]
  rw [List.flatMap_map]
  rw [List.map_flatMap, filter_flatMap]
  apply List.flatMap_congr
  intro q _
  rw [get_sections_removeEmptySections q "device"]
  rw [flatMap_filter_of_empty_nil _ _ (fun s h =>
    by rw [get_sections_of_empty h "net"])]
  rw [List.flatMap_map]
  rw [List.map_flatMap, filter_flatMap]
  apply List.flatMap_congr
  intro d _
  exact get_sections_removeEmptySections d "net"

theorem lastAlgorithm_prune (y : Section) :
    lastAlgorithm (removeEmptySections y) = lastAlgorithm y := by
  unfold lastAlgorithm
  rw [get_attributes_removeEmptySections]

theorem lastAlgorithm_set_attribute (s : Section) (v : String) :
    lastAlgorithm (s.set_attribute "algorithm" v) = some v := by
  unfold lastAlgorithm
  rw [get_attributes_set_attribute_self]
  rfl

theorem updateNetSection_no_rewrite (t : Bool) (x : Section) :
    ¬ (lastAlgorithm (updateNetSection t x) = some "lms" ∧ t = true)
    ∧ ¬ (lastAlgorithm (updateNetSection t x) = some "2nodelms"
          ∧ t = false) := by
  unfold updateNetSection
  split
  · next hc1 =>
    rcases Bool.and_eq_true_iff.mp hc1 with ⟨_, ht⟩
    rw [lastAlgorithm_set_attribute]
    constructor
    · intro ⟨he, _⟩
      simp at he
    · intro ⟨_, hf⟩
      rw [ht] at hf
      cases hf
  · split
    · next hc2 =>
      rcases Bool.and_eq_true_iff.mp hc2 with ⟨_, ht⟩
      rw [lastAlgorithm_set_attribute]
      constructor
      · intro ⟨_, htt⟩
        rw [htt] at ht
        cases ht
      · intro ⟨he, _⟩
        simp at he
    · next hc1 hc2 =>
      constructor
      · intro ⟨he, ht⟩
        rw [he, ht] at hc1
        simp at hc1
      · intro ⟨he, ht⟩
        rw [he, ht] at hc2
        simp at hc2

theorem phase2_id (t2N : Bool) (x : Section)
    (h : ∀ net ∈ netSections x, updateNetSection t2N net = net) :
    phase2 t2N x = x := by
  unfold phase2
  apply mapNamedChildren_id
  intro q hq
  apply mapNamedChildren_id
  intro d hd
  apply mapNamedChildren_id
  intro net hnet
  exact h net (List.mem_flatMap.mpr ⟨q, hq, List.mem_flatMap.mpr ⟨d, hd, hnet⟩⟩)

theorem setSectionOptionsTotal_fixpoint (l : List Section) (opts : List Attr)
    (hinit : ∀ s ∈ l.dropLast, stripKeys s opts = s)
    (hlast : ∀ s, l.getLast? = some s → applyOptionsToLast s opts = s) :
    setSectionOptionsTotal l opts = l := by
  rcases List.eq_nil_or_concat' l with rfl | ⟨A, b, rfl⟩
  · rfl
  · rw [setSectionOptionsTotal_concat]
    rw [List.dropLast_concat] at hinit
    have hap := hlast b (List.getLast?_concat A)
    clear hlast
    have hA : List.map (fun s => stripKeys s opts) A = A := by
      induction A with
      | nil => rfl
      | cons a as ih =>
        rw [List.map_cons, hinit a (List.mem_cons_self a as),
          ih (fun s hs => hinit s (List.mem_cons_of_mem a hs))]
    rw [hA, hap]

theorem pruneChildren_append (xs ys : List Section) :
    pruneChildren (xs ++ ys) = pruneChildren xs ++ pruneChildren ys := by
  rw [pruneChildren_eq, pruneChildren_eq, pruneChildren_eq,
    List.map_append, List.filter_append]

theorem prune_add_empty_quorum (u : Section) :
    removeEmptySections
        ((removeEmptySections u).add_section (.mk "quorum" [] []))
      = removeEmptySections u := by
  cases u with
  | mk n a cs =>
    rw [removeEmptySections_mk]
    show removeEmptySections (.mk n a (pruneChildren cs ++ [.mk "quorum" [] []]))
      = Section.mk n a (pruneChildren cs)
    rw [removeEmptySections_mk, pruneChildren_append, pruneChildren_idem]
    rw [show pruneChildren [Section.mk "quorum" [] []] = [] from rfl]
    rw [List.append_nil]

theorem quorums_update_two_node_full (S : Section) {Y0 : List Section}
    {z0 : Section} (hS : S.get_sections "quorum" = Y0 ++ [z0]) :
    ∃ Y1 z1, (update_two_node S).get_sections "quorum" = Y1 ++ [z1]
      ∧ (∀ y ∈ Y1, ∃ y0 ∈ Y0, ∀ k, k ≠ "two_node" →
          y.get_attributes k = y0.get_attributes k)
      ∧ (∀ k, k ≠ "two_node" → z1.get_attributes k = z0.get_attributes k)
      ∧ (∀ y ∈ Y1, y.get_attributes "two_node" = [])
      ∧ z1.get_attributes "two_node"
          = (if twoNodeCond S then [("two_node", "1")] else []) := by
  have hstrip : ∀ (s : Section) (k : String), k ≠ "two_node" →
      (stripKeys s [("two_node", "1")]).get_attributes k
        = s.get_attributes k := by
    intro s k hkk
    rw [get_attributes_stripKeys]
    simp [hkk]
  have happly : ∀ (s : Section) (k : String), k ≠ "two_node" →
      (applyOptionsToLast s [("two_node", "1")]).get_attributes k
        = s.get_attributes k := by
    intro s k hkk
    exact get_attributes_applyOptionsToLast_not_mem s _ _ (by simpa using hkk)
  unfold update_two_node
  by_cases h : twoNodeCond S = true
  · rw [quorums_phase2, quorums_twoNodePhase_true h]
    rw [ensure_section_of_nonempty S "quorum" (by rw [hS]; simp), hS,
      setSectionOptionsTotal_concat, List.map_append, List.map_singleton,
      List.map_map]
    refine ⟨_, _, rfl, ?_, ?_, ?_, ?_⟩
    · intro y hy
      rcases List.mem_map.mp hy with ⟨y0, hy0, rfl⟩
      refine ⟨y0, hy0, ?_⟩
      intro k hkk
      show ((mapNamedChildren (stripKeys y0 [("two_node", "1")]) "device"
          _)).get_attributes k = _
      rw [get_attributes_mapNamedChildren]
      exact hstrip y0 k hkk
    · intro k hkk
      rw [get_attributes_mapNamedChildren]
      exact happly z0 k hkk
    · intro y hy
      rcases List.mem_map.mp hy with ⟨y0, hy0, rfl⟩
      show ((mapNamedChildren (stripKeys y0 [("two_node", "1")]) "device"
          _)).get_attributes "two_node" = _
      rw [get_attributes_mapNamedChildren, get_attributes_stripKeys]
      simp
    · rw [get_attributes_mapNamedChildren, h]
      simp only [if_true]
      rw [get_attributes_applyOptionsToLast_mem z0 _ "two_node" "1"
        (by decide) (by decide)]
      rfl
  · have hfalse : twoNodeCond S = false := by
      revert h; cases twoNodeCond S <;> simp
    rw [quorums_phase2, quorums_twoNodePhase_false hfalse, hS,
      List.map_append, List.map_append, List.map_singleton,
      List.map_singleton, List.map_map]
    refine ⟨_, _, rfl, ?_, ?_, ?_, ?_⟩
    · intro y hy
      rcases List.mem_map.mp hy with ⟨y0, hy0, rfl⟩
      refine ⟨y0, hy0, ?_⟩
      intro k hkk
      show ((mapNamedChildren (y0.del_attributes_by_name "two_node") "device"
          _)).get_attributes k = _
      rw [get_attributes_mapNamedChildren]
      exact get_attributes_del_ne y0 "two_node" k hkk
    · intro k hkk
      rw [get_attributes_mapNamedChildren]
      exact get_attributes_del_ne z0 "two_node" k hkk
    · intro y hy
      rcases List.mem_map.mp hy with ⟨y0, hy0, rfl⟩
      show ((mapNamedChildren (y0.del_attributes_by_name "two_node") "device"
          _)).get_attributes "two_node" = _
      rw [get_attributes_mapNamedChildren]
      exact get_attributes_del_self y0 "two_node"
    · rw [get_attributes_mapNamedChildren, hfalse]
      simp only [Bool.false_eq_true, if_false]
      exact get_attributes_del_self z0 "two_node"

theorem getLast?_mem {α : Type} {l : List α} {a : α}
    (h : l.getLast? = some a) : a ∈ l := by
  rcases List.eq_nil_or_concat' l with rfl | ⟨xs, x, rfl⟩
  · cases h
  · rw [List.getLast?_concat] at h
    injection h with h
    subst h
    simp

theorem get_attributes_of_attrs_nil {s : Section} (h : s.attributes = [])
    (k : String) : s.get_attributes k = [] := by
  cases s with
  | mk n a c =>
    simp only [Section.attributes_mk] at h
    subst h
    rfl

theorem get_sections_update_two_node_ne (m : Section) (n' : String)
    (h : n' ≠ "quorum") :
    (update_two_node m).get_sections n' = m.get_sections n' := by
  unfold update_two_node
  rw [get_sections_phase2_ne _ _ _ h, get_sections_twoNodePhase_ne _ _ h]

theorem twoNodeCond_prune (x : Section)
    (hx : ∀ nl ∈ x.get_sections "nodelist", ∀ nd ∈ nl.get_sections "node",
      nd.attributes ≠ []) :
    twoNodeCond (removeEmptySections x) = twoNodeCond x := by
  unfold twoNodeCond
  rw [nodeCount_prune x hx, hasDev_prune, autoTieBreaker_eq_atbStream,
    autoTieBreaker_eq_atbStream, atbStream_prune]

theorem twoNodeCond_ensure (x : Section) :
    twoNodeCond (ensure_section x "quorum") = twoNodeCond x := by
  have hnc : nodeCount (ensure_section x "quorum") = nodeCount x := by
    unfold nodeCount get_nodes
    rw [get_sections_ensure_section_ne x "quorum" "nodelist" (by decide)]
  have hdev : has_quorum_device (ensure_section x "quorum")
      = has_quorum_device x := by
    unfold has_quorum_device
    exact any_quorums_ensure _ x rfl
  have hatb : atbStream (ensure_section x "quorum") = atbStream x := by
    unfold atbStream
    exact flatMap_quorums_ensure _ x rfl
  unfold twoNodeCond
  rw [hnc, hdev, autoTieBreaker_eq_atbStream, autoTieBreaker_eq_atbStream,
    hatb]

theorem updateNetSection_fix (b : Bool) (x : Section)
    (h1 : ¬ (lastAlgorithm x = some "lms" ∧ b = true))
    (h2 : ¬ (lastAlgorithm x = some "2nodelms" ∧ b = false)) :
    updateNetSection b x = x := by
  have hc1 : ¬ ((lastAlgorithm x == some "lms" && b) = true) := by
    intro hc
    rcases Bool.and_eq_true_iff.mp hc with ⟨he, hb⟩
    exact h1 ⟨by simpa using he, hb⟩
  have hc2 : ¬ ((lastAlgorithm x == some "2nodelms" && !b) = true) := by
    intro hc
    rcases Bool.and_eq_true_iff.mp hc with ⟨he, hb⟩
    exact h2 ⟨by simpa using he, by simpa using hb⟩
  unfold updateNetSection
  rw [if_neg hc1, if_neg hc2]

/-- C9 (amended): on a tree whose `node` sections each carry at least one
attribute, a `set_quorum_options` call with distinct submitted keys that is
accepted without error is idempotent — the second application returns
exactly the tree produced by the first. -/
theorem c9_idempotent (root : Section) (opts : List Attr)
    (hnodes : nodeSectionsHaveAttrs root)
    (hnd : (opts.map Prod.fst).Nodup)
    (hval : hasError (validate_quorum_options opts) = false) :
    ∃ t, set_quorum_options root opts = .ok t
      ∧ set_quorum_options t opts = .ok t := by
  have hkne : ∀ p ∈ opts, p.1 ≠ "two_node" := fun p hp =>
    quorum_option_ne_two_node (valid_opts_keys hval p hp)
  refine ⟨finishMutation (setQuorumMutation root opts),
    set_quorum_options_ok hval, ?_⟩
  set M := setQuorumMutation root opts with hM
  set t := finishMutation M with ht
  clear_value t M
  rcases List.eq_nil_or_concat'
      ((ensure_section root "quorum").get_sections "quorum")
    with hE | ⟨Q0, q0, hE⟩
  · exact absurd hE (get_sections_ensure_section_ne_nil root "quorum")
  have hS : M.get_sections "quorum"
      = Q0.map (fun s => stripKeys s opts)
        ++ [applyOptionsToLast q0 opts] := by
    rw [hM, quorums_setQuorumMutation, hE, setSectionOptionsTotal_concat]
  have hz0 : ∀ p ∈ opts, (applyOptionsToLast q0 opts).get_attributes p.1
      = if p.2 = "" then [] else [p] := by
    intro p hp
    have hm : (p.1, p.2) ∈ opts := by rw [Prod.mk.eta]; exact hp
    have h2 := get_attributes_applyOptionsToLast_mem q0 opts p.1 p.2 hnd hm
    rwa [Prod.mk.eta] at h2
  have hY0 : ∀ y ∈ Q0.map (fun s => stripKeys s opts), ∀ p ∈ opts,
      y.get_attributes p.1 = [] := by
    intro y hy p hp
    rcases List.mem_map.mp hy with ⟨s, _, rfl⟩
    rw [get_attributes_stripKeys]
    rw [if_pos (List.mem_map.mpr ⟨p, hp, rfl⟩)]
  obtain ⟨Y1, z1, hQ1, hY1, hz1ne, hY1tn, hz1tn⟩ :=
    quorums_update_two_node_full M hS
  have hQt : t.get_sections "quorum"
      = (Y1.map removeEmptySections).filter (fun c => !c.empty)
        ++ (if (removeEmptySections z1).empty then []
            else [removeEmptySections z1]) := by
    rw [ht]
    show (removeEmptySections (update_two_node M)).get_sections "quorum" = _
    rw [get_sections_removeEmptySections, hQ1, filter_map_prune_concat]
  have hF1 : ∀ w ∈ (Y1.map removeEmptySections).filter (fun c => !c.empty),
      ∃ y ∈ Y1, w = removeEmptySections y := by
    intro w hw
    rcases List.mem_map.mp (List.mem_filter.mp hw).1 with ⟨y, hy, rfl⟩
    exact ⟨y, hy, rfl⟩
  have hF1opts : ∀ w ∈ (Y1.map removeEmptySections).filter
        (fun c => !c.empty), ∀ p ∈ opts, w.get_attributes p.1 = [] := by
    intro w hw p hp
    rcases hF1 w hw with ⟨y, hy, rfl⟩
    rw [get_attributes_removeEmptySections]
    rcases hY1 y hy with ⟨y0, hy0, hkeq⟩
    rw [hkeq p.1 (hkne p hp)]
    exact hY0 y0 hy0 p hp
  have hF1tn : ∀ w ∈ (Y1.map removeEmptySections).filter
        (fun c => !c.empty), w.get_attributes "two_node" = [] := by
    intro w hw
    rcases hF1 w hw with ⟨y, hy, rfl⟩
    rw [get_attributes_removeEmptySections]
    exact hY1tn y hy
  have hU : ∀ nl ∈ (update_two_node M).get_sections "nodelist",
      ∀ nd ∈ nl.get_sections "node", nd.attributes ≠ [] := by
    intro nl hnl
    rw [get_sections_update_two_node_ne _ _ (by decide), hM,
      get_sections_setQuorumMutation_ne _ _ _ (by decide)] at hnl
    exact hnodes nl hnl
  have hcond : twoNodeCond t = twoNodeCond M := by
    rw [ht]
    show twoNodeCond (removeEmptySections (update_two_node M)) = _
    rw [twoNodeCond_prune _ hU, twoNodeCond_update_two_node]
  have hnc : nodeCount t = nodeCount M := by
    rw [ht]
    show nodeCount (removeEmptySections (update_two_node M)) = _
    rw [nodeCount_prune _ hU, nodeCount_update_two_node]
  have hnets : ∀ net ∈ netSections t,
      updateNetSection (nodeCount t == 2) net = net := by
    intro net hnet
    rw [ht, show finishMutation M = removeEmptySections (update_two_node M)
        from rfl, netSections_prune] at hnet
    rcases List.mem_map.mp (List.mem_filter.mp hnet).1 with ⟨w, hw, rfl⟩
    rw [netSections_update_two_node] at hw
    rcases List.mem_map.mp hw with ⟨m0, hm0, rfl⟩
    obtain ⟨hn1, hn2⟩ := updateNetSection_no_rewrite (nodeCount M == 2) m0
    apply updateNetSection_fix
    · rintro ⟨he, hb⟩
      rw [lastAlgorithm_prune] at he
      rw [hnc] at hb
      exact hn1 ⟨he, hb⟩
    · rintro ⟨he, hb⟩
      rw [lastAlgorithm_prune] at he
      rw [hnc] at hb
      exact hn2 ⟨he, hb⟩
  have hz1attrs : (removeEmptySections z1).empty = true →
      ∀ k, z1.get_attributes k = [] := by
    intro he k
    rw [← get_attributes_removeEmptySections]
    exact get_attributes_of_empty he k
  have hvalsE : (removeEmptySections z1).empty = true →
      ∀ p ∈ opts, p.2 = "" := by
    intro he p hp
    by_contra hpe
    have h1 := hz1ne p.1 (hkne p hp)
    rw [hz0 p hp, if_neg hpe, hz1attrs he p.1] at h1
    exact List.cons_ne_nil _ _ h1.symm
  have hcondME : (removeEmptySections z1).empty = true →
      twoNodeCond M = false := by
    intro he
    rcases Bool.eq_false_or_eq_true (twoNodeCond M) with h | h
    · exfalso
      rw [h] at hz1tn
      rw [hz1attrs he "two_node"] at hz1tn
      simp at hz1tn
    · exact h
  by_cases h0 : t.get_sections "quorum" = []
  · -- no quorum section survived the hygiene pass: the second call
    -- rebuilds an empty one, which the hygiene pass removes again
    have h0' := h0
    rw [hQt] at h0'
    have hsplit := List.append_eq_nil.mp h0'
    have hz1e : (removeEmptySections z1).empty = true := by
      rcases Bool.eq_false_or_eq_true (removeEmptySections z1).empty
        with h | h
      · exact h
      · exfalso
        have h2 := hsplit.2
        rw [if_neg (by rw [h]; decide)] at h2
        exact List.cons_ne_nil _ _ h2
    have hens : ensure_section t "quorum"
        = t.add_section (.mk "quorum" [] []) := by
      unfold ensure_section
      rw [if_pos (by rw [h0]; rfl)]
    have hqens : (ensure_section t "quorum").get_sections "quorum"
        = [Section.mk "quorum" [] []] :=
      get_sections_ensure_section_nil t "quorum" h0
    have hfix0 : applyOptionsToLast (.mk "quorum" [] []) opts
        = .mk "quorum" [] [] := by
      apply applyOptionsToLast_fixpoint
      intro p hp
      exact Or.inl ⟨hvalsE hz1e p hp, rfl⟩
    have hM2 : setQuorumMutation t opts
        = t.add_section (.mk "quorum" [] []) := by
      unfold setQuorumMutation setOptionsOnNamed
      rw [hqens]
      have hcc : setSectionOptionsTotal [Section.mk "quorum" [] []] opts
          = [Section.mk "quorum" [] []] := by
        have h := setSectionOptionsTotal_concat [] (.mk "quorum" [] []) opts
        rw [List.nil_append] at h
        rw [h, List.map_nil, List.nil_append, hfix0]
      rw [hcc, ← hqens, replaceNamedChildren_self, hens]
    have hqM2 : (setQuorumMutation t opts).get_sections "quorum"
        = [Section.mk "quorum" [] []] := by
      rw [hM2, ← hens, hqens]
    have hcondM2 : twoNodeCond (setQuorumMutation t opts) = false := by
      rw [hM2, ← hens, twoNodeCond_ensure, hcond, hcondME hz1e]
    have hph1 : twoNodePhase (setQuorumMutation t opts)
        = setQuorumMutation t opts := by
      unfold twoNodePhase
      rw [if_neg (by rw [hcondM2]; decide)]
      apply mapNamedChildren_id
      intro q hq
      rw [hqM2, List.mem_singleton] at hq
      subst hq
      exact del_attributes_fixpoint _ _ rfl
    have hnets2 : netSections (setQuorumMutation t opts) = [] := by
      unfold netSections
      rw [hqM2]
      rfl
    have hph2 : update_two_node (setQuorumMutation t opts)
        = setQuorumMutation t opts := by
      unfold update_two_node
      rw [hph1]
      apply phase2_id
      intro net hnet
      rw [hnets2] at hnet
      cases hnet
    rw [set_quorum_options_ok hval]
    have hfin : finishMutation (setQuorumMutation t opts) = t := by
      show removeEmptySections (update_two_node (setQuorumMutation t opts))
        = t
      rw [hph2, hM2, ht]
      show removeEmptySections
          ((removeEmptySections (update_two_node M)).add_section
            (.mk "quorum" [] [])) = finishMutation M
      rw [prune_add_empty_quorum]
      rfl
    rw [hfin]
  · -- at least one quorum section survived: the merge rule, the two_node
    -- phase, the algorithm pass and the hygiene pass all fix t
    have hensA : ensure_section t "quorum" = t :=
      ensure_section_of_nonempty t "quorum" h0
    have hfixSS : setSectionOptionsTotal (t.get_sections "quorum") opts
        = t.get_sections "quorum" := by
      by_cases hz1e : (removeEmptySections z1).empty = true
      · have hQt' : t.get_sections "quorum"
            = (Y1.map removeEmptySections).filter (fun c => !c.empty) := by
          rw [hQt, if_pos hz1e, List.append_nil]
        apply setSectionOptionsTotal_fixpoint
        · intro s hs
          have hmem : s ∈ t.get_sections "quorum" :=
            (List.dropLast_sublist _).subset hs
          rw [hQt'] at hmem
          exact stripKeys_fixpoint s opts (fun p hp => hF1opts s hmem p hp)
        · intro s hsl
          have hmem : s ∈ t.get_sections "quorum" := getLast?_mem hsl
          rw [hQt'] at hmem
          apply applyOptionsToLast_fixpoint
          intro p hp
          exact Or.inl ⟨hvalsE hz1e p hp, hF1opts s hmem p hp⟩
      · have hQt' : t.get_sections "quorum"
            = (Y1.map removeEmptySections).filter (fun c => !c.empty)
              ++ [removeEmptySections z1] := by
          rw [hQt, if_neg hz1e]
        apply setSectionOptionsTotal_fixpoint
        · intro s hs
          rw [hQt', List.dropLast_concat] at hs
          exact stripKeys_fixpoint s opts (fun p hp => hF1opts s hs p hp)
        · intro s hsl
          rw [hQt', List.getLast?_concat] at hsl
          injection hsl with hsl
          subst hsl
          apply applyOptionsToLast_fixpoint
          intro p hp
          rw [get_attributes_removeEmptySections,
            hz1ne p.1 (hkne p hp), hz0 p hp]
          by_cases hpe : p.2 = ""
          · exact Or.inl ⟨hpe, by rw [if_pos hpe]⟩
          · exact Or.inr ⟨hpe, by rw [if_neg hpe]⟩
    have hfixA : setQuorumMutation t opts = t := by
      unfold setQuorumMutation setOptionsOnNamed
      rw [hensA, hfixSS, replaceNamedChildren_self]
    have htp : twoNodePhase t = t := by
      rcases Bool.eq_false_or_eq_true (twoNodeCond M) with hc | hc
      · -- condition holds: the surviving last quorum already carries
        -- exactly two_node = "1"
        have hct : twoNodeCond t = true := by rw [hcond, hc]
        have hz1tn' : z1.get_attributes "two_node" = [("two_node", "1")] := by
          rw [hz1tn, hc]
          rfl
        have hz1nonempty : (removeEmptySections z1).empty = false := by
          apply section_empty_false_of_attrs
          rw [attributes_removeEmptySections]
          intro ha
          rw [get_attributes_of_attrs_nil ha "two_node"] at hz1tn'
          exact List.cons_ne_nil _ _ hz1tn'.symm
        have hQt' : t.get_sections "quorum"
            = (Y1.map removeEmptySections).filter (fun c => !c.empty)
              ++ [removeEmptySections z1] := by
          rw [hQt, if_neg (by rw [hz1nonempty]; decide)]
        have hss2 : setSectionOptionsTotal (t.get_sections "quorum")
            [("two_node", "1")] = t.get_sections "quorum" := by
          apply setSectionOptionsTotal_fixpoint
          · intro s hs
            rw [hQt', List.dropLast_concat] at hs
            apply stripKeys_fixpoint
            intro p hp
            rw [List.mem_singleton] at hp
            subst hp
            exact hF1tn s hs
          · intro s hsl
            rw [hQt', List.getLast?_concat] at hsl
            injection hsl with hsl
            subst hsl
            apply applyOptionsToLast_fixpoint
            intro p hp
            rw [List.mem_singleton] at hp
            subst hp
            refine Or.inr ⟨by decide, ?_⟩
            rw [get_attributes_removeEmptySections]
            exact hz1tn'
        unfold twoNodePhase
        rw [if_pos hct, hensA]
        unfold setOptionsOnNamed
        rw [hss2, replaceNamedChildren_self]
      · -- condition fails: no surviving quorum section carries two_node
        have hct : twoNodeCond t = false := by rw [hcond, hc]
        unfold twoNodePhase
        rw [if_neg (by rw [hct]; decide)]
        apply mapNamedChildren_id
        intro q hq
        apply del_attributes_fixpoint
        rw [hQt] at hq
        rcases List.mem_append.mp hq with hqF | hqz
        · exact hF1tn q hqF
        · by_cases hz1e : (removeEmptySections z1).empty = true
          · rw [if_pos hz1e] at hqz
            cases hqz
          · rw [if_neg hz1e, List.mem_singleton] at hqz
            subst hqz
            rw [get_attributes_removeEmptySections, hz1tn, hc]
            rfl
    have hu2nt : update_two_node t = t := by
      unfold update_two_node
      rw [htp]
      exact phase2_id _ _ hnets
    have hprt : removeEmptySections t = t := by
      rw [ht]
      show removeEmptySections (removeEmptySections (update_two_node M))
        = finishMutation M
      rw [removeEmptySections_idem]
      rfl
    rw [set_quorum_options_ok hval, hfixA]
    show Except.ok (removeEmptySections (update_two_node t)) = Except.ok t
    rw [hu2nt, hprt]

/-- C9: counterexample to the literal claim — on a tree whose two `node`
sections carry no attributes, `set_quorum_options` with an empty options
mapping first produces `quorum { two_node: 1 }` (the two_node condition is
read before the hygiene pass prunes the empty node sections), but the
second identical call sees zero nodes, removes `two_node` and prunes the
quorum section, returning a different tree. -/
theorem c9_idempotence_counterexample :
    set_quorum_options exEmptyNodes []
        = .ok (.mk "" [] [.mk "quorum" [("two_node", "1")] []])
      ∧ set_quorum_options (.mk "" [] [.mk "quorum" [("two_node", "1")] []])
          []
        = .ok (.mk "" [] [])
      ∧ Section.mk "" [] [.mk "quorum" [("two_node", "1")] []]
        ≠ Section.mk "" [] [] := by
  refine ⟨rfl, rfl, ?_⟩
  intro h
  injection h with h1 h2 h3
  exact List.cons_ne_nil _ _ h3

/-- Witness for C9 at a concrete input: two populated quorum sections, no
node sections, submitting `wait_for_all = "1"`. -/
theorem c9_idempotent_witness :
    ∃ t, set_quorum_options exTwoQuorums [("wait_for_all", "1")] = .ok t
      ∧ set_quorum_options t [("wait_for_all", "1")] = .ok t :=
  c9_idempotent exTwoQuorums [("wait_for_all", "1")]
    (fun nl hnl => absurd hnl (List.not_mem_nil nl))
    (by decide) (by decide)

end Corosync
